import Mathlib

/-!
# People viewer (`JS/script.js`): query building, paging and URL synchronisation

A shallow embedding of the script behind the people table:

* the module state (`currentPage`, `peopleData`, `sortCriteria`,
  `filterCriteria`) together with the parts of the browser the script reads
  and writes (the table body, the pagination label, the query string of the
  location, the requests sent, the loader);
* `fetchPeopleData`: the construction of the `$orderby` / `$filter`
  parameters, the request URL and the paging loop;
* `displayPeople` and the four pagination handlers;
* `getQueryParams` / `updateQueryParams`;
* `resetSort`, `resetFilter`, `refreshData`;
* the filter popup: `addFilterCriteria`, `showFilterPopup`,
  `deleteFilterCriteria` and the handlers attached to the column select, the
  relation select and the value input.

JavaScript strings are Lean `String`s, array indices and lengths are `Nat`,
`currentPage` is an `Int` (the script can compute `Math.ceil(0 / 5) = 0` and
`(0 - 1) * 5 = -5`).  The remote endpoint is a function from the request URL
to a `Response`; the `while (hasMore)` loop takes a bound on the number of
iterations because a server that always answers with a full page keeps it
running for ever.
-/

namespace PeopleViewer

/-! ## Data model -/

/-- One record of the `value` array of a response. -/
structure Person where
  UserName : String
  FirstName : String
  LastName : String
  MiddleName : Option String
  Gender : String
  Age : Option Nat
  deriving DecidableEq, Repr

/-- An element of `sortCriteria`: `{ id, column, order }`. -/
structure SortCriterion where
  id : Nat
  column : String
  order : String
  deriving DecidableEq, Repr

/-- An element of `filterCriteria`: `{ id, column, relation, value }`. -/
structure FilterCriterion where
  id : Nat
  column : String
  relation : String
  value : String
  deriving DecidableEq, Repr

/-- The constant `peoplePerPage`. -/
def peoplePerPage : Nat := 5

/-- The constant `pageSize` of `fetchPeopleData`. -/
def pageSize : Nat := 10

/-- The constant `baseUrl` of `fetchPeopleData`. -/
def baseUrl : String :=
  "https://cors-anywhere.herokuapp.com/http://services.odata.org/TripPinRESTierService/People"

/-- The object `columnTypes`, read as `columnTypes[column]`.  A key the object
does not have gives `none`: the script only ever compares the result with
`'string'` and `'number'`, which no other value equals. -/
def columnTypes (column : String) : Option String :=
  if column = "UserName" then some "string"
  else if column = "FirstName" then some "string"
  else if column = "LastName" then some "string"
  else if column = "MiddleName" then some "string"
  else if column = "Gender" then some "string"
  else if column = "Age" then some "number"
  else none

/-- The `value` fields of `relationsByType[type]`, in order. -/
def relationsByType (type : String) : List String :=
  if type = "string" then ["eq", "contains", "startswith", "endswith"]
  else if type = "number" then ["eq", "gt", "lt"]
  else []

/-! ## `fetchPeopleData`: query parameters -/

/-- The string `column order` that the `map` over `sortCriteria` produces. -/
def orderByPair (c : SortCriterion) : String :=
  c.column ++ " " ++ c.order

/-- The `$orderby` block: the parameter pushed for a non-empty `sortCriteria`. -/
def orderByParams (sortCriteria : List SortCriterion) : List String :=
  if sortCriteria.length > 0 then
    ["$orderby=" ++ ",".intercalate (sortCriteria.map orderByPair)]
  else []

/-- The callback of `filterCriteria.map`: the clause of one criterion, or
`none` where the script returns `null`. -/
def filterClause (criterion : FilterCriterion) : Option String :=
  let column := criterion.column
  let relation := criterion.relation
  let value := criterion.value
  if value = "" then none
  else if columnTypes column = some "string" then
    if relation = "eq" then some (column ++ " eq '" ++ value ++ "'")
    else if relation = "contains" then some ("contains(" ++ column ++ ", '" ++ value ++ "')")
    else if relation = "startswith" then some ("startswith(" ++ column ++ ", '" ++ value ++ "')")
    else if relation = "endswith" then some ("endswith(" ++ column ++ ", '" ++ value ++ "')")
    else none
  else if columnTypes column = some "number" then
    some (column ++ " " ++ relation ++ " " ++ value)
  else none

/-- The array `filters`: the clauses that are not `null`, in list order. -/
def filters (filterCriteria : List FilterCriterion) : List String :=
  filterCriteria.filterMap filterClause

/-- The `$filter` block: the parameter pushed when `filters` is not empty. -/
def filterParams (filterCriteria : List FilterCriterion) : List String :=
  if filterCriteria.length > 0 then
    if (filters filterCriteria).length > 0 then
      ["$filter=" ++ " and ".intercalate (filters filterCriteria)]
    else []
  else []

/-- The array `queryParams` once both blocks have run. -/
def queryParams (sortCriteria : List SortCriterion)
    (filterCriteria : List FilterCriterion) : List String :=
  orderByParams sortCriteria ++ filterParams filterCriteria

/-- The `url` of one loop iteration. -/
def requestUrl (skip : Nat) (queryParams : List String) : String :=
  let url := baseUrl ++ "?$skip=" ++ toString skip ++ "&$top=" ++ toString pageSize
  if queryParams.length > 0 then url ++ "&" ++ "&".intercalate queryParams else url

/-! ## The endpoint and the paging loop -/

/-- What `await fetch(url)` followed by `await response.json()` gives the loop
body: a response with `response.ok` whose body has the field `value` (or lacks
it), a response with another status, or an exception thrown by either call. -/
inductive Response where
  | ok (value : Option (List Person))
  | notOk (status : Nat)
  | thrown
  deriving DecidableEq, Repr

/-- The variables the `while (hasMore)` loop works on: `peopleData`, the URLs
passed to `fetch` so far, and whether the loop has left (`hasMore = false`). -/
structure LoopResult where
  peopleData : List Person
  requests : List String
  finished : Bool
  deriving DecidableEq, Repr

/-- The `while (hasMore)` loop, run for at most `fuel` iterations from the given
`skip` and `peopleData`.  A `throw` inside `try` reaches the `catch` block, which
only sets `hasMore = false`. -/
def pagingLoop (fetch : String → Response) (queryParams : List String) :
    Nat → Nat → List Person → List String → LoopResult
  | 0, _, peopleData, requests =>
    { peopleData := peopleData, requests := requests, finished := false }
  | fuel + 1, skip, peopleData, requests =>
    let url := requestUrl skip queryParams
    match fetch url with
    | Response.ok value =>
      let newPeople := value.getD []
      if newPeople.length < pageSize then
        { peopleData := peopleData ++ newPeople, requests := requests ++ [url], finished := true }
      else
        pagingLoop fetch queryParams fuel (skip + pageSize) (peopleData ++ newPeople)
          (requests ++ [url])
    | _ => { peopleData := peopleData, requests := requests ++ [url], finished := true }

/-! ## Module state and the page -/

/-- A child of `#peopleTableBody`: the row of one person (its six cells) or the
single row `No people data available`. -/
inductive Row where
  | person (cells : List String)
  | noData
  deriving DecidableEq, Repr

/-- The module variables and the parts of the page the functions below touch.
`tableBody` holds the children of `#peopleTableBody` (the element is taken to
exist), `pagination` the pair shown as `Page x of y`, `search` the parameters
of `window.location.search`, `requests` the URLs passed to `fetch`. -/
structure AppState where
  currentPage : Int
  peopleData : List Person
  sortCriteria : List SortCriterion
  filterCriteria : List FilterCriterion
  tableBody : List Row
  pagination : Option (Int × Int)
  search : List (String × String)
  requests : List String
  loaderHidden : Bool
  deriving DecidableEq, Repr

/-- The helper `showLoader`. -/
def showLoader (st : AppState) : AppState :=
  { st with loaderHidden := false }

/-- The helper `hideLoader`. -/
def hideLoader (st : AppState) : AppState :=
  { st with loaderHidden := true }

/-- The index arithmetic of `Array.prototype.slice`: a negative index counts
from the end, and the result is clamped to `0 .. len`. -/
def sliceIndex (len : Nat) (i : Int) : Nat :=
  if i < 0 then (Int.ofNat len + i).toNat else min i.toNat len

/-- The call `xs.slice(start, stop)`. -/
def slice {α : Type} (xs : List α) (start stop : Int) : List α :=
  let k := sliceIndex xs.length start
  let final := sliceIndex xs.length stop
  (xs.drop k).take (final - k)

/-- The value `Math.ceil(peopleData.length / peoplePerPage)`; the division of
two array lengths is exact enough in double precision for the ceiling to be the
integer ceiling. -/
def totalPages (peopleData : List Person) : Int :=
  Int.ofNat ((peopleData.length + (peoplePerPage - 1)) / peoplePerPage)

/-- The cell text of `person.MiddleName || 'N/A'`. -/
def middleNameCell (p : Person) : String :=
  match p.MiddleName with
  | some m => if m = "" then "N/A" else m
  | none => "N/A"

/-- The cell text of `person.Age || 'N/A'`. -/
def ageCell (p : Person) : String :=
  match p.Age with
  | some a => if a = 0 then "N/A" else toString a
  | none => "N/A"

/-- The `<tr>` built for one person. -/
def personRow (p : Person) : Row :=
  Row.person [p.UserName, p.FirstName, p.LastName, middleNameCell p, p.Gender, ageCell p]

/-- The function `displayPeople` (the labels of the sort and filter buttons,
which `updateButtonLabels` sets from the two list lengths, are not part of the
state). -/
def displayPeople (st : AppState) : AppState :=
  let startIndex : Int := (st.currentPage - 1) * Int.ofNat peoplePerPage
  let endIndex : Int := startIndex + Int.ofNat peoplePerPage
  let paginatedPeople := slice st.peopleData startIndex endIndex
  if paginatedPeople.length = 0 then
    { st with tableBody := [Row.noData] }
  else
    { st with
      tableBody := paginatedPeople.map personRow
      pagination := some (st.currentPage, totalPages st.peopleData) }

/-- The handler `jumpToFirstPage`. -/
def jumpToFirstPage (st : AppState) : AppState :=
  displayPeople { st with currentPage := 1 }

/-- The handler `previousPage`. -/
def previousPage (st : AppState) : AppState :=
  if st.currentPage > 1 then displayPeople { st with currentPage := st.currentPage - 1 }
  else st

/-- The handler `nextPage`. -/
def nextPage (st : AppState) : AppState :=
  if st.currentPage < totalPages st.peopleData then
    displayPeople { st with currentPage := st.currentPage + 1 }
  else st

/-- The handler `jumpToLastPage`. -/
def jumpToLastPage (st : AppState) : AppState :=
  displayPeople { st with currentPage := totalPages st.peopleData }

/-- The function `fetchPeopleData` against the endpoint `fetch`; `none` when the
loop has not left after `fuel` iterations. -/
def fetchPeopleData (fetch : String → Response) (fuel : Nat) (st : AppState) :
    Option AppState :=
  let st := showLoader st
  let st := { st with peopleData := [] }
  let out := pagingLoop fetch (queryParams st.sortCriteria st.filterCriteria) fuel 0
    st.peopleData st.requests
  if out.finished then
    let st := { st with peopleData := out.peopleData, requests := out.requests }
    let st := if st.peopleData.length = 0 then st
      else displayPeople { st with currentPage := 1 }
    some (hideLoader st)
  else none

/-! ## URL synchronisation -/

/-- The method `URLSearchParams.get`: the value of the first pair with the given
name, `none` for `null`. -/
def paramsGet (params : List (String × String)) (name : String) : Option String :=
  (params.find? (fun kv => kv.1 = name)).map (fun kv => kv.2)

/-- Replace the value of the first pair named `name` and drop the later ones. -/
def paramsReplace (name value : String) : List (String × String) → List (String × String)
  | [] => []
  | kv :: rest =>
    if kv.1 = name then (name, value) :: rest.filter (fun e => e.1 ≠ name)
    else kv :: paramsReplace name value rest

/-- The method `URLSearchParams.set`. -/
def paramsSet (params : List (String × String)) (name value : String) :
    List (String × String) :=
  if params.any (fun kv => kv.1 = name) then paramsReplace name value params
  else params ++ [(name, value)]

/-- The expression `x || fallback` for `x` a string or `null`. -/
def orElse (x : Option String) (fallback : String) : String :=
  match x with
  | some v => if v = "" then fallback else v
  | none => fallback

/-- The function `getQueryParams`; `sortNow` and `filterNow` are the values of
the two `Date.now()` calls.  The query string is kept in parsed form: writing
the parameters with `URLSearchParams.toString` and reading the result with
`new URLSearchParams` gives the same pairs back. -/
def getQueryParams (sortNow filterNow : Nat) (st : AppState) : AppState :=
  let params := st.search
  let sortField := orElse (paramsGet params "sortField") ""
  let sortOrder := orElse (paramsGet params "sortOrder") "asc"
  let filterField := orElse (paramsGet params "filterField") ""
  let filterValue := orElse (paramsGet params "filterValue") ""
  let st :=
    if sortField ≠ "" ∧ sortOrder ≠ "" then
      { st with sortCriteria := [{ id := sortNow, column := sortField, order := sortOrder }] }
    else st
  if filterField ≠ "" ∧ filterValue ≠ "" then
    let relation := if columnTypes filterField = some "string" then "eq" else "eq"
    { st with filterCriteria :=
        [{ id := filterNow, column := filterField, relation := relation, value := filterValue }] }
  else st

/-- The parameters `updateQueryParams` collects before it builds `newUrl`. -/
def urlParams (sortCriteria : List SortCriterion) (filterCriteria : List FilterCriterion) :
    List (String × String) :=
  let params : List (String × String) := []
  let params :=
    match sortCriteria with
    | c :: _ => paramsSet (paramsSet params "sortField" c.column) "sortOrder" c.order
    | [] => params
  match filterCriteria with
  | c :: _ => paramsSet (paramsSet params "filterField" c.column) "filterValue" c.value
  | [] => params

/-- The function `updateQueryParams`: `pushState` keeps the path and replaces
the query string. -/
def updateQueryParams (st : AppState) : AppState :=
  { st with search := urlParams st.sortCriteria st.filterCriteria }

/-! ## Reset and refresh -/

/-- The statements of `resetSort` before the `await`. -/
def resetSortBegin (st : AppState) : AppState :=
  updateQueryParams { showLoader st with sortCriteria := [] }

/-- The function `resetSort`. -/
def resetSort (fetch : String → Response) (fuel : Nat) (st : AppState) : Option AppState :=
  fetchPeopleData fetch fuel (resetSortBegin st)

/-- The statements of `resetFilter` before the `await`. -/
def resetFilterBegin (st : AppState) : AppState :=
  updateQueryParams { showLoader st with filterCriteria := [] }

/-- The function `resetFilter`. -/
def resetFilter (fetch : String → Response) (fuel : Nat) (st : AppState) : Option AppState :=
  fetchPeopleData fetch fuel (resetFilterBegin st)

/-- The statements of `refreshData` before the `await`. -/
def refreshDataBegin (st : AppState) : AppState :=
  updateQueryParams { showLoader st with sortCriteria := [], filterCriteria := [] }

/-- The function `refreshData`. -/
def refreshData (fetch : String → Response) (fuel : Nat) (st : AppState) : Option AppState :=
  fetchPeopleData fetch fuel (refreshDataBegin st)

/-! ## Reading a filter clause back

The reader below is the yardstick for a well-formed clause on a string column.
It follows the OData grammar for the two shapes the script writes: a string
literal starts and ends with a single quote, and a single quote inside the
literal is written as two single quotes. -/

/-- The single-quote character. -/
def squote : Char := Char.ofNat 39

/-- Split off the leading run of letters and digits. -/
def readIdent : List Char → List Char × List Char
  | [] => ([], [])
  | c :: cs =>
    if c.isAlphanum then ((c :: (readIdent cs).1), (readIdent cs).2)
    else ([], c :: cs)

/-- Read the inside of a string literal up to and including its closing quote;
gives the value and the input left over, `none` when the literal never closes. -/
def readLiteralBody : List Char → Option (List Char × List Char)
  | [] => none
  | c :: cs =>
    if c = squote then
      match cs with
      | d :: ds =>
        if d = squote then (readLiteralBody ds).map (fun r => (squote :: r.1, r.2))
        else some ([], d :: ds)
      | [] => some ([], [])
    else (readLiteralBody cs).map (fun r => (c :: r.1, r.2))

/-- Read one string literal from the front of the input. -/
def readLiteral : List Char → Option (List Char × List Char)
  | [] => none
  | c :: cs => if c = squote then readLiteralBody cs else none

/-- Drop leading blanks. -/
def skipBlanks : List Char → List Char
  | [] => []
  | c :: cs => if c = ' ' then skipBlanks cs else c :: cs

/-- Read a whole clause `column eq 'value'` or `fn(column, 'value')` with `fn`
one of `contains`, `startswith`, `endswith`; gives column, relation and value,
`none` when the input is not exactly one such clause. -/
def parseStringClause (clause : String) : Option (String × String × String) :=
  let head := readIdent clause.data
  match head.2 with
  | c :: rest =>
    if c = '(' then
      let column := readIdent rest
      match column.2 with
      | d :: rest =>
        if d = ',' then
          match readLiteral (skipBlanks rest) with
          | some (value, tail) =>
            if tail = [')'] ∧ String.mk head.1 ∈ ["contains", "startswith", "endswith"] then
              some (String.mk column.1, String.mk head.1, String.mk value)
            else none
          | none => none
        else none
      | [] => none
    else if c = ' ' then
      let op := readIdent rest
      match op.2 with
      | d :: rest =>
        if d = ' ' then
          match readLiteral rest with
          | some (value, tail) =>
            if tail = [] ∧ String.mk op.1 = "eq" then
              some (String.mk head.1, String.mk op.1, String.mk value)
            else none
          | none => none
        else none
      | [] => none
    else none
  | [] => none

/-- Whether the query parameter `p` has the given name, that is, starts with
`name=`. -/
def hasName (name p : String) : Bool :=
  decide ((name ++ "=").data <+: p.data)

/-! ## Sample data -/

/-- The module state as the script declares it, on a page whose table is still
empty. -/
def initialState : AppState :=
  { currentPage := 1, peopleData := [], sortCriteria := [], filterCriteria := [],
    tableBody := [], pagination := none, search := [], requests := [],
    loaderHidden := false }

/-- A record, told apart from the others by its age. -/
def samplePerson (n : Nat) : Person :=
  { UserName := "user", FirstName := "First", LastName := "Last", MiddleName := none,
    Gender := "Female", Age := some n }

/-- Twelve records: one full page and a page of two. -/
def twelvePeople : List Person :=
  (List.range 12).map samplePerson

/-- An endpoint holding `twelvePeople`, asked without sort or filter. -/
def twelveEndpoint (url : String) : Response :=
  if url = requestUrl 0 [] then Response.ok (some (twelvePeople.take 10))
  else if url = requestUrl 10 [] then Response.ok (some (twelvePeople.drop 10))
  else Response.ok (some [])

/-- An endpoint that serves one full page and answers status 500 afterwards. -/
def failingEndpoint (url : String) : Response :=
  if url = requestUrl 0 [] then Response.ok (some (twelvePeople.take 10))
  else Response.notOk 500

/-- A state holding seven records: a full page of the table and a page of two. -/
def sevenState : AppState :=
  { initialState with peopleData := (List.range 7).map samplePerson }

/-- The table after an earlier fetch of seven records, showing page 2. -/
def pageTwoState : AppState :=
  displayPeople { sevenState with currentPage := 2 }

/-- An endpoint with no record for the query: every page is empty. -/
def noMatchEndpoint (_url : String) : Response :=
  Response.ok (some [])

/-- A state with two sort criteria and two filter criteria, as left by the two
popups. -/
def criteriaState : AppState :=
  { initialState with
    sortCriteria :=
      [{ id := 1, column := "LastName", order := "desc" },
       { id := 2, column := "Age", order := "asc" }]
    filterCriteria :=
      [{ id := 3, column := "FirstName", relation := "contains", value := "an" },
       { id := 4, column := "Age", relation := "gt", value := "30" }] }

/-! ## The filter popup

Criterion objects are shared between the array `filterCriteria` and the closures
of the handlers, and the handlers assign to their fields.  The state therefore
keeps every criterion object created so far in `objects`, a reference being a
position in that list, and `filterCriteria` as the list of references the array
holds.  Removing a criterion from the array leaves its object in `objects`. -/

/-- The option values of a `select.filter-column`. -/
def columnOptions : List String :=
  ["UserName", "FirstName", "LastName", "MiddleName", "Gender", "Age"]

/-- The property names every object has from `Object.prototype`: for these
`columnTypes[column]` is not `undefined` although `columnTypes` has no such
column. -/
def inheritedKeys : List String :=
  ["constructor", "toString", "toLocaleString", "valueOf", "hasOwnProperty",
   "isPrototypeOf", "propertyIsEnumerable", "__proto__", "__defineGetter__",
   "__defineSetter__", "__lookupGetter__", "__lookupSetter__"]

/-- The lookup `relationsByType[columnTypes[column]]`, as option values; `[]`
where the script gets `undefined`. -/
def relationsOfColumn (column : String) : List String :=
  match columnTypes column with
  | some type => relationsByType type
  | none => []

/-- How the handlers of a `div.filter-criterion` reach their criterion: the ones
attached by `addFilterCriteria` call `filterCriteria.find(c => c.id === criterionId)`
when the event arrives, the ones attached by `showFilterPopup` hold the criterion
object itself. -/
inductive Binding where
  | byId (criterionId : Nat)
  | direct (ref : Nat)
  deriving DecidableEq, Repr

/-- A `div.filter-criterion` of `#filterCriteriaList`: its `data-id`, the binding
of its handlers and the option values of its `select.filter-relation`. -/
structure FilterDiv where
  dataId : Nat
  binding : Binding
  relationOptions : List String
  deriving DecidableEq, Repr

/-- The criterion objects, the module variable `filterCriteria` (references into
`objects`), whether `#filterCriteriaList` is in the document, and its
`div.filter-criterion` children in document order. -/
structure FilterPopup where
  objects : List FilterCriterion
  filterCriteria : List Nat
  listPresent : Bool
  divs : List FilterDiv
  deriving DecidableEq, Repr

/-- The array `filterCriteria` as `fetchPeopleData` reads it: the objects behind
the references, in order. -/
def criteriaOf (p : FilterPopup) : List FilterCriterion :=
  p.filterCriteria.filterMap (fun ref => p.objects[ref]?)

/-- The call `filterCriteria.find(c => c.id === criterionId)`: the first
reference of the array whose object has that id. -/
def findCriterion (objects : List FilterCriterion) (criterionId : Nat) :
    List Nat → Option Nat
  | [] => none
  | ref :: rest =>
    match objects[ref]? with
    | some c => if c.id = criterionId then some ref else findCriterion objects criterionId rest
    | none => findCriterion objects criterionId rest

/-- The criterion a handler works on, `none` when `find` gives `undefined`. -/
def criterionRef (binding : Binding) (p : FilterPopup) : Option Nat :=
  match binding with
  | Binding.byId criterionId => findCriterion p.objects criterionId p.filterCriteria
  | Binding.direct ref => some ref

/-- Assign to fields of the criterion object at position `k`. -/
def modifyCriterion (k : Nat) (f : FilterCriterion → FilterCriterion)
    (objects : List FilterCriterion) : List FilterCriterion :=
  match objects[k]? with
  | some c => objects.set k (f c)
  | none => objects

/-- The state of the popup once the page has loaded: `getQueryParams` has put at
most one criterion into `filterCriteria`, and no popup has been shown. -/
def popupAtLoad (sortNow filterNow : Nat) (search : List (String × String)) : FilterPopup :=
  let loaded := (getQueryParams sortNow filterNow { initialState with search := search }).filterCriteria
  { objects := loaded, filterCriteria := List.range loaded.length, listPresent := false,
    divs := [] }

/-- The function `addFilterCriteria`, called at time `now`.  Without
`#filterCriteriaList` the call `list.appendChild(div)` throws before anything is
pushed. -/
def addFilterCriteria (now : Nat) (p : FilterPopup) : FilterPopup :=
  if p.listPresent then
    let criterionId := now
    let defaultColumn := "UserName"
    let defaultRelations := relationsOfColumn defaultColumn
    { p with
      objects := p.objects ++
        [{ id := criterionId, column := defaultColumn,
           relation := defaultRelations.headD "", value := "" }]
      filterCriteria := p.filterCriteria ++ [p.objects.length]
      divs := p.divs ++
        [{ dataId := criterionId, binding := Binding.byId criterionId,
           relationOptions := defaultRelations }] }
  else p

/-- The divs the `forEach` of `showFilterPopup` builds.  For a column that
`columnTypes` does not have, `relations` is `undefined` and `relations.map`
throws, which ends the loop. -/
def popupDivs (objects : List FilterCriterion) : List Nat → List FilterDiv
  | [] => []
  | ref :: rest =>
    match objects[ref]? with
    | some criterion =>
      match columnTypes criterion.column with
      | some columnType =>
        { dataId := criterion.id, binding := Binding.direct ref,
          relationOptions := relationsByType columnType } :: popupDivs objects rest
      | none => []
    | none => []

/-- The function `showFilterPopup`: the content of the popup is replaced, which
creates an empty `#filterCriteriaList`, and one div is built per criterion. -/
def showFilterPopup (p : FilterPopup) : FilterPopup :=
  { p with listPresent := true, divs := popupDivs p.objects p.filterCriteria }

/-- The function `showSortPopup`, as far as the filter popup goes: it replaces
the content of the popup, so `#filterCriteriaList` and its divs are gone. -/
def showSortPopup (p : FilterPopup) : FilterPopup :=
  { p with listPresent := false, divs := [] }

/-- Remove the first div with the given `data-id`, the one
`document.querySelector` finds. -/
def removeDiv (criterionId : Nat) : List FilterDiv → List FilterDiv
  | [] => []
  | div :: rest => if div.dataId = criterionId then rest else div :: removeDiv criterionId rest

/-- The function `deleteFilterCriteria`. -/
def deleteFilterCriteria (id : Nat) (p : FilterPopup) : FilterPopup :=
  { p with
    filterCriteria := p.filterCriteria.filter
      (fun ref => match p.objects[ref]? with
        | some c => decide (c.id ≠ id)
        | none => false)
    divs := removeDiv id p.divs }

/-- The assignment `filterCriteria = []` of `resetFilter` and of `refreshData`. -/
def clearFilterCriteria (p : FilterPopup) : FilterPopup :=
  { p with filterCriteria := [] }

/-- The value of `relationsByType[columnTypes[column] || 'string']`, `none` for
`undefined`: an inherited key makes `columnTypes[column]` a function or an
object, under which `relationsByType` has nothing. -/
def newRelationsOf (column : String) : Option (List String) :=
  if column ∈ inheritedKeys then none
  else some (relationsByType ((columnTypes column).getD "string"))

/-- The `change` handler of `select.filter-column` in the div at position `i`,
with `e.target.value = value`.  Without a criterion the first assignment throws.
With `newRelations` `undefined` the handler throws at `newRelations.map`, after
it has set the column; with an empty `newRelations` it would throw at
`newRelations[0].value`, after it has emptied the relation select. -/
def columnChange (i : Nat) (value : String) (p : FilterPopup) : FilterPopup :=
  match p.divs[i]? with
  | none => p
  | some div =>
    match criterionRef div.binding p with
    | none => p
    | some k =>
      match newRelationsOf value with
      | none =>
        { p with objects := modifyCriterion k (fun c => { c with column := value }) p.objects }
      | some [] =>
        { p with
          objects := modifyCriterion k (fun c => { c with column := value }) p.objects
          divs := p.divs.set i { div with relationOptions := [] } }
      | some (first :: others) =>
        { p with
          objects :=
            modifyCriterion k
              (fun c => { c with column := value, relation := first, value := "" })
              p.objects
          divs := p.divs.set i { div with relationOptions := first :: others } }

/-- The `change` handler of `select.filter-relation` in the div at position `i`. -/
def relationChange (i : Nat) (value : String) (p : FilterPopup) : FilterPopup :=
  match p.divs[i]? with
  | none => p
  | some div =>
    match criterionRef div.binding p with
    | none => p
    | some k =>
      { p with objects := modifyCriterion k (fun c => { c with relation := value }) p.objects }

/-- The `input` handler of `input.filter-value` in the div at position `i`, with
`e.target.value = value` (the text of the input itself is not part of the
state). -/
def valueInput (i : Nat) (value : String) (p : FilterPopup) : FilterPopup :=
  match p.divs[i]? with
  | none => p
  | some div =>
    match criterionRef div.binding p with
    | none => p
    | some k =>
      { p with objects := modifyCriterion k (fun c => { c with value := value }) p.objects }

/-- What can happen to `filterCriteria` and the popup after the page has loaded. -/
inductive PopupEvent where
  | showFilter
  | showSort
  | addFilter (now : Nat)
  | deleteFilter (id : Nat)
  | clearFilters
  | column (i : Nat) (value : String)
  | relation (i : Nat) (value : String)
  | input (i : Nat) (value : String)
  deriving DecidableEq, Repr

/-- The state after one event. -/
def applyEvent (p : FilterPopup) : PopupEvent → FilterPopup
  | PopupEvent.showFilter => showFilterPopup p
  | PopupEvent.showSort => showSortPopup p
  | PopupEvent.addFilter now => addFilterCriteria now p
  | PopupEvent.deleteFilter id => deleteFilterCriteria id p
  | PopupEvent.clearFilters => clearFilterCriteria p
  | PopupEvent.column i value => columnChange i value p
  | PopupEvent.relation i value => relationChange i value p
  | PopupEvent.input i value => valueInput i value p

/-- The state after a sequence of events. -/
def runEvents (p : FilterPopup) (events : List PopupEvent) : FilterPopup :=
  events.foldl applyEvent p

/-- Whether the page can deliver an event: a change comes from a div of the list
and carries a value its select offers, a column of `columnOptions` or a relation
among the current options of the div's relation select. -/
def delivered (p : FilterPopup) : PopupEvent → Bool
  | PopupEvent.column i value => decide (i < p.divs.length) && decide (value ∈ columnOptions)
  | PopupEvent.relation i value =>
    (match p.divs[i]? with
     | some div => decide (value ∈ div.relationOptions)
     | none => false)
  | PopupEvent.input i _ => decide (i < p.divs.length)
  | _ => true

/-- Whether `Date.now()` gives `addFilterCriteria` an id that no criterion object
created so far carries. -/
def freshId (p : FilterPopup) : PopupEvent → Bool
  | PopupEvent.addFilter now => p.objects.all (fun c => decide (c.id ≠ now))
  | _ => true

/-- Whether every event of a sequence can be delivered in the state it arrives
in. -/
def deliveredRun : FilterPopup → List PopupEvent → Bool
  | _, [] => true
  | p, e :: events => delivered p e && deliveredRun (applyEvent p e) events

/-- Whether no `addFilterCriteria` of a sequence repeats an id. -/
def freshRun : FilterPopup → List PopupEvent → Bool
  | _, [] => true
  | p, e :: events => freshId p e && freshRun (applyEvent p e) events

/-- The property the popup keeps while ids do not repeat; `loaded` is the number
of criterion objects the page load created.  No two objects share an id; the
array holds each object at most once; no two divs share a `data-id`, which is the
id of an object and the id their handlers look for; the relation select of a div
offers the relations of the column type of the object with the div's id, and
that object has an offered column and a relation of the column's type, when
`addFilterCriteria` created it. -/
def PopupInvariant (loaded : Nat) (p : FilterPopup) : Prop :=
  (p.objects.map (fun c => c.id)).Nodup ∧
  (∀ ref ∈ p.filterCriteria, ref < p.objects.length) ∧
  p.filterCriteria.Nodup ∧
  (p.divs.map (fun d => d.dataId)).Nodup ∧
  (∀ div ∈ p.divs, div.dataId ∈ p.objects.map (fun c => c.id)) ∧
  (∀ div ∈ p.divs, ∀ ref : Nat, div.binding = Binding.direct ref →
    ∃ c, p.objects[ref]? = some c ∧ c.id = div.dataId) ∧
  (∀ div ∈ p.divs, ∀ criterionId : Nat, div.binding = Binding.byId criterionId →
    criterionId = div.dataId) ∧
  (∀ div ∈ p.divs, ∀ (ref : Nat) (c : FilterCriterion), loaded ≤ ref →
    p.objects[ref]? = some c → c.id = div.dataId →
    div.relationOptions = relationsOfColumn c.column) ∧
  (∀ (ref : Nat) (c : FilterCriterion), loaded ≤ ref → p.objects[ref]? = some c →
    c.column ∈ columnOptions ∧ c.relation ∈ relationsOfColumn c.column)

/-- A session on a page loaded with `?filterField=Age&filterValue=5`: the popup
is opened, two filters are added, the second is switched to `Age` with relation
`gt` and value `30`, the first is deleted, the popup is reopened and the
remaining new filter gets the relation `lt`. -/
def sampleSession : List PopupEvent :=
  [PopupEvent.showFilter, PopupEvent.addFilter 100, PopupEvent.addFilter 200,
   PopupEvent.column 2 "Age", PopupEvent.relation 2 "gt", PopupEvent.input 2 "30",
   PopupEvent.deleteFilter 100, PopupEvent.showFilter, PopupEvent.relation 1 "lt"]

/-- The query string `?filterField=Age&filterValue=5`. -/
def sampleSearch : List (String × String) :=
  [("filterField", "Age"), ("filterValue", "5")]

/-- A session in which two calls of `addFilterCriteria` get the same
`Date.now()`: the column select of the second div is set to `Age`, then the
relation select of the first div, which still offers the relations of a string
column, to `contains`, and `x` is typed into the first input. -/
def sameIdSession : List PopupEvent :=
  [PopupEvent.showFilter, PopupEvent.addFilter 100, PopupEvent.addFilter 100,
   PopupEvent.column 1 "Age", PopupEvent.relation 0 "contains", PopupEvent.input 0 "x"]

/-! ## Lemmas on strings -/

set_option maxRecDepth 4000

theorem intercalate_go_length (sep : String) (l : List String) (acc : String) :
    acc.length ≤ (String.intercalate.go acc sep l).length := by
  induction l generalizing acc with
  | nil => simp [String.intercalate.go]
  | cons a as ih =>
    simp only [String.intercalate.go]
    refine le_trans ?_ (ih _)
    simp only [String.length_append]
    omega

theorem intercalate_length_pos (sep a : String) (as : List String) (h : 0 < a.length) :
    0 < (sep.intercalate (a :: as)).length := by
  simp only [String.intercalate]
  exact lt_of_lt_of_le h (intercalate_go_length sep as a)

theorem filterClause_length_pos (c : FilterCriterion) (x : String)
    (h : filterClause c = some x) : 0 < x.length := by
  unfold filterClause at h
  simp only at h
  split_ifs at h <;> simp only [Option.some.injEq] at h <;> subst h <;>
    simp only [String.length_append] <;>
    first
      | (have h1 : " eq '".length = 5 := by decide
         omega)
      | (have h1 : "contains(".length = 9 := by decide
         omega)
      | (have h1 : "startswith(".length = 11 := by decide
         omega)
      | (have h1 : "endswith(".length = 9 := by decide
         omega)
      | (have h1 : " ".length = 1 := by decide
         omega)

theorem filters_head_length_pos (fc : List FilterCriterion) (a : String) (as : List String)
    (h : filters fc = a :: as) : 0 < a.length := by
  have hm : a ∈ filters fc := by rw [h]; exact List.mem_cons_self _ _
  unfold filters at hm
  obtain ⟨c, _, hc⟩ := List.mem_filterMap.mp hm
  exact filterClause_length_pos c a hc

theorem append_eq_self_iff_length (p x : String) (h : p ++ x = p) : x.length = 0 := by
  have := congrArg String.length h
  simp only [String.length_append] at this
  omega

/-! ## Filter clauses on string columns -/

theorem readLiteralBody_cons_ne (c : Char) (cs : List Char) (hc : c ≠ squote) :
    readLiteralBody (c :: cs) = (readLiteralBody cs).map (fun r => (c :: r.1, r.2)) := by
  cases cs <;> simp [readLiteralBody, hc]

theorem readLiteralBody_plain (v rest : List Char) (hv : squote ∉ v)
    (hrest : ∀ d ds, rest = d :: ds → d ≠ squote) :
    readLiteralBody (v ++ squote :: rest) = some (v, rest) := by
  induction v with
  | nil =>
    cases rest with
    | nil => simp [readLiteralBody]
    | cons d ds =>
      have := hrest d ds rfl
      simp [readLiteralBody, this]
  | cons c cs ih =>
    have hc : c ≠ squote := fun h => hv (by simp [h])
    have hcs : squote ∉ cs := fun h => hv (by simp [h])
    rw [List.cons_append, readLiteralBody_cons_ne _ _ hc, ih hcs]
    rfl

theorem columnTypes_string (column : String) (h : columnTypes column = some "string") :
    column = "UserName" ∨ column = "FirstName" ∨ column = "LastName" ∨
      column = "MiddleName" ∨ column = "Gender" := by
  unfold columnTypes at h
  split_ifs at h <;> simp_all

/-- A value without a single quote is read back: on a string column, with one of
the four relations of that type, the clause parses to the same column, relation
and value. -/
theorem filterClause_parses_back (c : FilterCriterion)
    (hcol : columnTypes c.column = some "string")
    (hrel : c.relation ∈ ["eq", "contains", "startswith", "endswith"])
    (hval : c.value ≠ "") (hq : squote ∉ c.value.data) :
    ∃ clause, filterClause c = some clause ∧
      parseStringClause clause = some (c.column, c.relation, c.value) := by
  obtain ⟨id, column, relation, value⟩ := c
  simp only at hcol hrel hval hq
  have hlit : ∀ rest : List Char, (∀ d ds, rest = d :: ds → d ≠ squote) →
      readLiteralBody (value.data ++ squote :: rest) = some (value.data, rest) :=
    fun rest hr => readLiteralBody_plain _ _ hq hr
  have hlit0 := hlit [] (by simp)
  have hlit1 := hlit [')'] (by simp; decide)
  simp only [squote] at hlit0 hlit1
  simp only [List.mem_cons, List.mem_singleton, List.not_mem_nil, or_false] at hrel
  rcases columnTypes_string column hcol with h | h | h | h | h <;>
  rcases hrel with r | r | r | r <;> subst h <;> subst r <;>
  simp [filterClause, hval, columnTypes, parseStringClause, readIdent, readLiteral, squote,
    skipBlanks, hlit0, hlit1]

/-- C1 (the script does not keep the literal intact when the value holds a
single quote): for the criterion `LastName eq O'Brien` the clause built is
`LastName eq 'O'Brien'`; a reader of string literals stops at the quote after
`O`, leaving `Brien'` unread, and the clause does not parse as a filter clause. -/
theorem filterClause_quote_ends_literal_early :
    filterClause { id := 0, column := "LastName", relation := "eq", value := "O'Brien" }
        = some "LastName eq 'O'Brien'" ∧
      readLiteral "'O'Brien'".data = some ("O".data, "Brien'".data) ∧
      parseStringClause "LastName eq 'O'Brien'" = none := by
  decide

/-! ## The $filter parameter -/

/-- C2: the clause of every kind of criterion, the criteria without a clause,
and the `$filter` parameter as the `' and '`-join of the clauses in list order,
absent when there is no clause and never the bare `$filter=`. -/
theorem filterParams_spec (filterCriteria : List FilterCriterion) :
    (∀ c : FilterCriterion, c.value ≠ "" → columnTypes c.column = some "string" →
      (c.relation = "eq" → filterClause c = some (c.column ++ " eq '" ++ c.value ++ "'")) ∧
      (c.relation = "contains" →
        filterClause c = some ("contains(" ++ c.column ++ ", '" ++ c.value ++ "')")) ∧
      (c.relation = "startswith" →
        filterClause c = some ("startswith(" ++ c.column ++ ", '" ++ c.value ++ "')")) ∧
      (c.relation = "endswith" →
        filterClause c = some ("endswith(" ++ c.column ++ ", '" ++ c.value ++ "')")) ∧
      (c.relation ∉ ["eq", "contains", "startswith", "endswith"] → filterClause c = none)) ∧
    (∀ c : FilterCriterion, c.value ≠ "" → columnTypes c.column = some "number" →
      filterClause c = some (c.column ++ " " ++ c.relation ++ " " ++ c.value)) ∧
    (∀ c : FilterCriterion, c.value = "" → filterClause c = none) ∧
    (∀ c : FilterCriterion, columnTypes c.column ≠ some "string" →
      columnTypes c.column ≠ some "number" → filterClause c = none) ∧
    (filterCriteria.filterMap filterClause = [] → filterParams filterCriteria = []) ∧
    (filterCriteria.filterMap filterClause ≠ [] → filterParams filterCriteria =
      ["$filter=" ++ " and ".intercalate (filterCriteria.filterMap filterClause)]) ∧
    "$filter=" ∉ filterParams filterCriteria := by
  refine ⟨?_, ?_, ?_, ?_, ?_, ?_, ?_⟩
  · intro c hv hc
    refine ⟨?_, ?_, ?_, ?_, ?_⟩ <;> intro hr <;> simp_all [filterClause]
  · intro c hv hc
    simp [filterClause, hv, hc]
  · intro c hv
    simp [filterClause, hv]
  · intro c h1 h2
    simp [filterClause, h1, h2]
  · intro h
    simp [filterParams, filters, h]
  · intro h
    have hpos : 0 < filterCriteria.length := by
      cases filterCriteria with
      | nil => simp at h
      | cons a as => simp
    have hpos2 : 0 < (filters filterCriteria).length := by
      unfold filters
      exact List.length_pos.mpr h
    simp only [filterParams, gt_iff_lt, hpos, hpos2, if_true]
    rfl
  · intro hmem
    unfold filterParams at hmem
    split_ifs at hmem with h1 h2
    · rw [List.mem_singleton] at hmem
      have hlen := append_eq_self_iff_length _ _ hmem.symm
      cases hf : filters filterCriteria with
      | nil => simp [hf] at h2
      | cons a as =>
        rw [hf] at hlen
        have := intercalate_length_pos " and " a as (filters_head_length_pos _ _ _ hf)
        omega
    · simp at hmem
    · simp at hmem

theorem filterParams_spec_witness :
    filterClause { id := 1, column := "Gender", relation := "contains", value := "ale" }
        = some "contains(Gender, 'ale')" ∧
      filterClause { id := 2, column := "Age", relation := "gt", value := "30" }
        = some "Age gt 30" ∧
      filterParams
          [{ id := 1, column := "Gender", relation := "contains", value := "ale" },
           { id := 3, column := "Age", relation := "gt", value := "" },
           { id := 2, column := "Age", relation := "gt", value := "30" }]
        = ["$filter=contains(Gender, 'ale') and Age gt 30"] :=
  have h := filterParams_spec
    [{ id := 1, column := "Gender", relation := "contains", value := "ale" },
     { id := 3, column := "Age", relation := "gt", value := "" },
     { id := 2, column := "Age", relation := "gt", value := "30" }]
  ⟨((h.1 { id := 1, column := "Gender", relation := "contains", value := "ale" }
      (by decide) (by decide)).2.1 rfl),
    h.2.1 { id := 2, column := "Age", relation := "gt", value := "30" } (by decide) (by decide),
    h.2.2.2.2.2.1 (by decide)⟩

/-! ## The $orderby parameter and the request URL -/

theorem hasName_orderby_filter (x : String) : hasName "$orderby" ("$filter=" ++ x) = false := by
  simp [hasName]

theorem hasName_orderby_self (x : String) : hasName "$orderby" ("$orderby=" ++ x) = true := by
  simp [hasName]

theorem filterParams_cases (fc : List FilterCriterion) :
    filterParams fc = [] ∨ ∃ x, filterParams fc = ["$filter=" ++ x] := by
  unfold filterParams
  split_ifs
  · exact Or.inr ⟨_, rfl⟩
  · exact Or.inl rfl
  · exact Or.inl rfl

theorem orderByParams_cons (c : SortCriterion) (cs : List SortCriterion) :
    orderByParams (c :: cs) = ["$orderby=" ++ ",".intercalate ((c :: cs).map orderByPair)] := by
  simp [orderByParams]

theorem filterParams_not_orderby (fc : List FilterCriterion) :
    (filterParams fc).filter (hasName "$orderby") = [] := by
  unfold filterParams
  split_ifs <;> simp [hasName_orderby_filter]

/-- C3: a non-empty `sortCriteria` gives exactly one `$orderby` parameter, whose
value joins every criterion's `column order` pair with `,` in list order; an
empty one gives none; and the URL of a request is the base URL, then
`?$skip=<s>&$top=10`, then the `$orderby` and the `$filter` parameter in that
order, each behind its own `&`. -/
theorem requestUrl_spec (skip : Nat) (sortCriteria : List SortCriterion)
    (filterCriteria : List FilterCriterion) :
    (sortCriteria ≠ [] →
      orderByParams sortCriteria =
        ["$orderby=" ++
          ",".intercalate (sortCriteria.map (fun c => c.column ++ " " ++ c.order))] ∧
      ((queryParams sortCriteria filterCriteria).filter (hasName "$orderby")).length = 1) ∧
    (sortCriteria = [] →
      (queryParams sortCriteria filterCriteria).filter (hasName "$orderby") = []) ∧
    requestUrl skip (queryParams sortCriteria filterCriteria) =
      baseUrl ++ "?$skip=" ++ toString skip ++ "&$top=10" ++
        String.join ((orderByParams sortCriteria ++ filterParams filterCriteria).map
          (fun p => "&" ++ p)) := by
  have htop : toString pageSize = "10" := by decide
  refine ⟨?_, ?_, ?_⟩
  · intro h
    obtain ⟨c, cs, rfl⟩ := List.exists_cons_of_ne_nil h
    refine ⟨orderByParams_cons c cs, ?_⟩
    simp only [queryParams, List.filter_append, filterParams_not_orderby, List.append_nil,
      orderByParams_cons]
    simp [List.filter, hasName_orderby_self]
  · intro h
    subst h
    simp [queryParams, orderByParams, filterParams_not_orderby]
  · have h10 : ("&$top=10" : String) = "&$top=" ++ "10" := by decide
    rw [h10]
    cases sortCriteria with
    | nil =>
      rcases filterParams_cases filterCriteria with hf | ⟨x, hf⟩ <;>
        simp [-String.reduceAppend, requestUrl, queryParams, orderByParams, hf, htop, String.intercalate,
          String.intercalate.go, String.join, String.append_assoc]
    | cons c cs =>
      rcases filterParams_cases filterCriteria with hf | ⟨x, hf⟩ <;>
        simp [-String.reduceAppend, requestUrl, queryParams, orderByParams_cons, hf, htop, String.intercalate,
          String.intercalate.go, String.join, String.append_assoc]

theorem requestUrl_spec_witness :
    orderByParams [{ id := 1, column := "LastName", order := "asc" },
        { id := 2, column := "Age", order := "desc" }]
      = ["$orderby=LastName asc,Age desc"] ∧
    requestUrl 20 (queryParams
        [{ id := 1, column := "LastName", order := "asc" },
         { id := 2, column := "Age", order := "desc" }]
        [{ id := 3, column := "Gender", relation := "eq", value := "Female" }])
      = baseUrl ++ "?$skip=20&$top=10&$orderby=LastName asc,Age desc&$filter=Gender eq 'Female'" :=
  have h := requestUrl_spec 20
    [{ id := 1, column := "LastName", order := "asc" },
     { id := 2, column := "Age", order := "desc" }]
    [{ id := 3, column := "Gender", relation := "eq", value := "Female" }]
  ⟨(h.1 (by decide)).1, h.2.2.trans (by decide)⟩

/-! ## The paging loop -/

/-- Full pages keep the loop going: `m` successful requests from page `j` on, each
with at least `pageSize` records, use up `m` iterations, append the pages and
log the URLs. -/
theorem pagingLoop_full_pages (fetch : String → Response) (qp : List String)
    (pages : Nat → List Person) (m : Nat) :
    ∀ (j fuel : Nat) (acc : List Person) (reqs : List String),
      (∀ i, j ≤ i → i < j + m →
        fetch (requestUrl (10 * i) qp) = Response.ok (some (pages i)) ∧
          10 ≤ (pages i).length) →
      pagingLoop fetch qp (fuel + m) (10 * j) acc reqs =
        pagingLoop fetch qp fuel (10 * (j + m))
          (acc ++ ((List.range' j m).map pages).flatten)
          (reqs ++ (List.range' j m).map (fun i => requestUrl (10 * i) qp)) := by
  induction m with
  | zero => intro j fuel acc reqs _; simp
  | succ m ih =>
    intro j fuel acc reqs h
    obtain ⟨hj, hlen⟩ := h j (le_refl _) (by omega)
    have hstep : pagingLoop fetch qp (fuel + m + 1) (10 * j) acc reqs =
        pagingLoop fetch qp (fuel + m) (10 * (j + 1)) (acc ++ pages j)
          (reqs ++ [requestUrl (10 * j) qp]) := by
      rw [pagingLoop]
      simp only [hj, Option.getD_some, pageSize]
      rw [if_neg (by omega)]
      rfl
    rw [← Nat.add_assoc, hstep, ih (j + 1) fuel _ _ (fun i h1 h2 => h i (by omega) (by omega))]
    simp [List.range'_succ, Nat.add_assoc, Nat.add_comm 1 m]

theorem flatten_pages_eq_take (L : List Person) (m : Nat) :
    ((List.range' 0 m).map (fun i => (L.drop (10 * i)).take 10)).flatten = L.take (10 * m) := by
  induction m with
  | zero => simp
  | succ m ih =>
    rw [List.range'_concat, List.map_append, List.flatten_append, ih]
    simp [Nat.mul_succ, List.take_add]

theorem displayPeople_frame (st : AppState) :
    (displayPeople st).currentPage = st.currentPage ∧
      (displayPeople st).peopleData = st.peopleData ∧
      (displayPeople st).sortCriteria = st.sortCriteria ∧
      (displayPeople st).filterCriteria = st.filterCriteria ∧
      (displayPeople st).search = st.search ∧
      (displayPeople st).requests = st.requests := by
  unfold displayPeople
  simp only
  split_ifs <;> simp

/-- A run of `fetchPeopleData` whose loop leaves returns a state with the loop's
`peopleData` and request log; the criteria and the query string are untouched. -/
theorem fetchPeopleData_finished (fetch : String → Response) (fuel : Nat) (st : AppState)
    (h : (pagingLoop fetch (queryParams st.sortCriteria st.filterCriteria) fuel 0 []
      st.requests).finished = true) :
    ∃ st', fetchPeopleData fetch fuel st = some st' ∧
      st'.peopleData = (pagingLoop fetch (queryParams st.sortCriteria st.filterCriteria)
        fuel 0 [] st.requests).peopleData ∧
      st'.requests = (pagingLoop fetch (queryParams st.sortCriteria st.filterCriteria)
        fuel 0 [] st.requests).requests ∧
      st'.sortCriteria = st.sortCriteria ∧ st'.filterCriteria = st.filterCriteria ∧
      st'.search = st.search := by
  unfold fetchPeopleData
  simp only [showLoader, hideLoader, h, if_true]
  refine ⟨_, rfl, ?_⟩
  split_ifs <;> simp [displayPeople_frame]

theorem fetchPeopleData_unfinished (fetch : String → Response) (fuel : Nat) (st : AppState)
    (h : (pagingLoop fetch (queryParams st.sortCriteria st.filterCriteria) fuel 0 []
      st.requests).finished = false) :
    fetchPeopleData fetch fuel st = none := by
  unfold fetchPeopleData
  simp [showLoader, h]

/-- The loop against an endpoint that serves the list `L` page by page: with at
most `|L| / 10` iterations it has not left, with more it has left with
`peopleData = L` after `|L| / 10 + 1` requests. -/
theorem pagingLoop_fixed_list (fetch : String → Response) (qp : List String)
    (L : List Person) (reqs : List String)
    (h : ∀ k, 10 * k ≤ L.length →
      fetch (requestUrl (10 * k) qp) = Response.ok (some ((L.drop (10 * k)).take 10))) :
    (∀ fuel, L.length / 10 + 1 ≤ fuel →
      pagingLoop fetch qp fuel 0 [] reqs =
        { peopleData := L,
          requests := reqs ++ (List.range (L.length / 10 + 1)).map
            (fun k => requestUrl (10 * k) qp),
          finished := true }) ∧
    (∀ fuel, fuel ≤ L.length / 10 →
      (pagingLoop fetch qp fuel 0 [] reqs).finished = false) := by
  have hfull : ∀ m, m ≤ L.length / 10 → ∀ i, 0 ≤ i → i < 0 + m →
      fetch (requestUrl (10 * i) qp) = Response.ok (some ((L.drop (10 * i)).take 10)) ∧
        10 ≤ ((L.drop (10 * i)).take 10).length := by
    intro m hm i _ hi
    have h1 : 10 * i + 10 ≤ L.length := by omega
    refine ⟨h i (by omega), ?_⟩
    simp only [List.length_take, List.length_drop]
    omega
  constructor
  · intro fuel hfuel
    obtain ⟨f, rfl⟩ : ∃ f, fuel = (f + 1) + L.length / 10 := ⟨fuel - (L.length / 10 + 1), by omega⟩
    have hrun := pagingLoop_full_pages fetch qp (fun i => (L.drop (10 * i)).take 10)
      (L.length / 10) 0 (f + 1) [] reqs (hfull _ (le_refl _))
    rw [hrun, flatten_pages_eq_take, pagingLoop]
    have hlast := h (L.length / 10) (by omega)
    simp only [Nat.zero_add] at hlast ⊢
    simp only [hlast, Option.getD_some, pageSize, List.nil_append]
    have hshort : ((L.drop (10 * (L.length / 10))).take 10).length < 10 := by
      simp only [List.length_take, List.length_drop]
      omega
    rw [if_pos hshort]
    have hall : L.take (10 * (L.length / 10)) ++ (L.drop (10 * (L.length / 10))).take 10 = L := by
      rw [← List.take_add]
      exact List.take_of_length_le (by omega)
    simp [hall, List.range_succ, List.range_eq_range']
  · intro fuel hfuel
    have hrun := pagingLoop_full_pages fetch qp (fun i => (L.drop (10 * i)).take 10)
      fuel 0 0 [] reqs (hfull _ hfuel)
    simp only [Nat.zero_add] at hrun
    rw [hrun]
    rfl

/-- C4: against an endpoint that answers the request at `$skip=s` with the records
`s .. s+9` of a fixed list `L` (asked only of the offsets `10 * k ≤ |L|`, the ones
the loop can reach), `fetchPeopleData` returns once it is given `|L| / 10 + 1`
loop iterations and not with fewer; it has then sent exactly the requests at
skip `0, 10, ..., 10 * (|L| / 10)`, every page before the last held 10 records
and the last fewer than 10, and `peopleData` is `L`. -/
theorem fetchPeopleData_fixed_list (fetch : String → Response) (L : List Person)
    (st : AppState)
    (h : ∀ k, 10 * k ≤ L.length →
      fetch (requestUrl (10 * k) (queryParams st.sortCriteria st.filterCriteria)) =
        Response.ok (some ((L.drop (10 * k)).take 10))) :
    (∀ fuel, L.length / 10 + 1 ≤ fuel →
      ∃ st', fetchPeopleData fetch fuel st = some st' ∧
        st'.peopleData = L ∧
        st'.requests = st.requests ++ (List.range (L.length / 10 + 1)).map
          (fun k => requestUrl (10 * k) (queryParams st.sortCriteria st.filterCriteria))) ∧
    (∀ fuel, fuel ≤ L.length / 10 → fetchPeopleData fetch fuel st = none) ∧
    (∀ k, k < L.length / 10 → ((L.drop (10 * k)).take 10).length = 10) ∧
    ((L.drop (10 * (L.length / 10))).take 10).length < 10 := by
  obtain ⟨hdone, hnot⟩ := pagingLoop_fixed_list fetch
    (queryParams st.sortCriteria st.filterCriteria) L st.requests h
  refine ⟨?_, ?_, ?_, ?_⟩
  · intro fuel hfuel
    have hloop := hdone fuel hfuel
    obtain ⟨st', hst, hp, hr, _⟩ := fetchPeopleData_finished fetch fuel st (by rw [hloop])
    exact ⟨st', hst, by rw [hp, hloop], by rw [hr, hloop]⟩
  · intro fuel hfuel
    exact fetchPeopleData_unfinished fetch fuel st (hnot fuel hfuel)
  · intro k hk
    simp only [List.length_take, List.length_drop]
    omega
  · simp only [List.length_take, List.length_drop]
    omega

theorem fetchPeopleData_fixed_list_witness :
    ∃ st', fetchPeopleData twelveEndpoint 2 initialState = some st' ∧
      st'.peopleData = twelvePeople ∧
      st'.requests = [requestUrl 0 [], requestUrl 10 []] :=
  (fetchPeopleData_fixed_list twelveEndpoint twelvePeople initialState
    (by
      intro k hk
      have hk2 : k < 2 := by
        have : twelvePeople.length = 12 := by decide
        omega
      interval_cases k <;> decide)).1 2 (by decide)

/-- C5: when the requests at skip `0, 10, ..., 10 * (k - 1)` succeed with full
pages (`pageSize` records or more) and the request at skip `10 * k` gets a
non-ok status or throws, `fetchPeopleData` returns after `k + 1` loop iterations
(and not after fewer): the request at `10 * k` is the last one sent, and
`peopleData` is the concatenation of the `k` pages in order. -/
theorem fetchPeopleData_stops_on_error (fetch : String → Response)
    (pages : Nat → List Person) (k : Nat) (st : AppState)
    (hok : ∀ i, i < k →
      fetch (requestUrl (10 * i) (queryParams st.sortCriteria st.filterCriteria)) =
        Response.ok (some (pages i)) ∧ pageSize ≤ (pages i).length)
    (hfail : (∃ status,
        fetch (requestUrl (10 * k) (queryParams st.sortCriteria st.filterCriteria)) =
          Response.notOk status) ∨
      fetch (requestUrl (10 * k) (queryParams st.sortCriteria st.filterCriteria)) =
        Response.thrown) :
    (∀ fuel, k + 1 ≤ fuel →
      ∃ st', fetchPeopleData fetch fuel st = some st' ∧
        st'.peopleData = ((List.range k).map pages).flatten ∧
        st'.requests = st.requests ++ (List.range (k + 1)).map
          (fun i => requestUrl (10 * i) (queryParams st.sortCriteria st.filterCriteria))) ∧
    (∀ fuel, fuel ≤ k → fetchPeopleData fetch fuel st = none) := by
  have hfull : ∀ m, m ≤ k → ∀ i, 0 ≤ i → i < 0 + m →
      fetch (requestUrl (10 * i) (queryParams st.sortCriteria st.filterCriteria)) =
        Response.ok (some (pages i)) ∧ 10 ≤ (pages i).length := by
    intro m hm i _ hi
    exact hok i (by omega)
  constructor
  · intro fuel hfuel
    obtain ⟨f, rfl⟩ : ∃ f, fuel = (f + 1) + k := ⟨fuel - (k + 1), by omega⟩
    have hrun := pagingLoop_full_pages fetch _ pages k 0 (f + 1) [] st.requests
      (hfull k (le_refl _))
    simp only [Nat.zero_add, Nat.mul_zero, List.nil_append] at hrun
    have hlast : pagingLoop fetch (queryParams st.sortCriteria st.filterCriteria) (f + 1)
        (10 * k) ((List.range' 0 k).map pages).flatten
        (st.requests ++ (List.range' 0 k).map
          (fun i => requestUrl (10 * i) (queryParams st.sortCriteria st.filterCriteria))) =
        { peopleData := ((List.range k).map pages).flatten,
          requests := st.requests ++ (List.range (k + 1)).map
            (fun i => requestUrl (10 * i) (queryParams st.sortCriteria st.filterCriteria)),
          finished := true } := by
      rw [pagingLoop]
      rcases hfail with ⟨status, hs⟩ | hs <;>
        simp [hs, List.range_succ, List.range_eq_range']
    rw [hlast] at hrun
    obtain ⟨st', hst, hp, hr, _⟩ := fetchPeopleData_finished fetch _ st (by rw [hrun])
    exact ⟨st', hst, by rw [hp, hrun], by rw [hr, hrun]⟩
  · intro fuel hfuel
    have hrun := pagingLoop_full_pages fetch _ pages fuel 0 0 [] st.requests (hfull fuel hfuel)
    simp only [Nat.zero_add, Nat.mul_zero] at hrun
    exact fetchPeopleData_unfinished fetch fuel st (by rw [hrun]; rfl)

theorem fetchPeopleData_stops_on_error_witness :
    ∃ st', fetchPeopleData failingEndpoint 2 initialState = some st' ∧
      st'.peopleData = twelvePeople.take 10 ∧
      st'.requests = [requestUrl 0 [], requestUrl 10 []] :=
  (fetchPeopleData_stops_on_error failingEndpoint (fun _ => twelvePeople.take 10) 1
    initialState
    (by
      intro i hi
      interval_cases i
      decide)
    (Or.inl ⟨500, by decide⟩)).1 2 (by decide)

/-! ## Pages of the table -/

theorem slice_page {α : Type} (xs : List α) (p : Nat) (hp : 1 ≤ p) :
    slice xs (((p : Int) - 1) * Int.ofNat peoplePerPage)
        (((p : Int) - 1) * Int.ofNat peoplePerPage + Int.ofNat peoplePerPage) =
      (xs.drop (5 * (p - 1))).take 5 := by
  obtain ⟨q, rfl⟩ : ∃ q, p = q + 1 := ⟨p - 1, by omega⟩
  have h1 : (((q + 1 : Nat) : Int) - 1) * Int.ofNat peoplePerPage = ((5 * q : Nat) : Int) := by
    simp [peoplePerPage]; ring
  have h2 : ((5 * q : Nat) : Int) + Int.ofNat peoplePerPage = ((5 * q + 5 : Nat) : Int) := by
    simp [peoplePerPage]
  rw [h1, h2]
  simp only [slice, sliceIndex, Nat.add_sub_cancel]
  rw [if_neg (by omega), if_neg (by omega)]
  simp only [Int.toNat_ofNat]
  by_cases hlen : 5 * q ≤ xs.length
  · rw [Nat.min_eq_left hlen, List.take_eq_take, List.length_drop]
    omega
  · have hd : xs.drop (5 * q) = [] := List.drop_eq_nil_of_le (by omega)
    have hd2 : xs.drop (min (5 * q) xs.length) = [] := List.drop_eq_nil_of_le (by omega)
    rw [hd, hd2]; simp

theorem displayPeople_page (st : AppState) (p : Nat) (hp : 1 ≤ p)
    (hlt : 5 * (p - 1) < st.peopleData.length) :
    (displayPeople { st with currentPage := (p : Int) }).tableBody =
      ((st.peopleData.drop (5 * (p - 1))).take 5).map personRow := by
  unfold displayPeople
  simp only [slice_page _ p hp]
  rw [if_neg]
  simp only [List.length_take, List.length_drop]
  omega

theorem flatten_chunks_eq_take {α : Type} (L : List α) (s m : Nat) :
    ((List.range m).map (fun i => (L.drop (s * i)).take s)).flatten = L.take (s * m) := by
  induction m with
  | zero => simp
  | succ m ih =>
    rw [List.range_succ, List.map_append, List.flatten_append, ih]
    simp [Nat.mul_succ, List.take_add]

/-- The integer arithmetic of `totalPages` is the ceiling of the exact quotient. -/
theorem totalPages_eq_ceil (peopleData : List Person) :
    totalPages peopleData = ⌈(peopleData.length : ℚ) / 5⌉ := by
  symm
  rw [Int.ceil_eq_iff]
  simp only [totalPages, peoplePerPage]
  generalize peopleData.length = n
  have hdm := Nat.div_add_mod (n + 4) 5
  have hlt := Nat.mod_lt (n + 4) (by norm_num : 5 > 0)
  set q := (n + 4) / 5 with hq
  set r := (n + 4) % 5 with hr
  have hn : (n : ℚ) = 5 * q + r - 4 := by
    have : ((n + 4 : Nat) : ℚ) = ((5 * q + r : Nat) : ℚ) := by rw [hdm]
    push_cast at this
    linarith
  have hr0 : (0 : ℚ) ≤ r := Nat.cast_nonneg r
  have hr4 : (r : ℚ) ≤ 4 := by exact_mod_cast Nat.lt_succ_iff.mp hlt
  simp only [Int.ofNat_eq_coe, Int.cast_natCast]
  constructor
  · rw [lt_div_iff₀ (by norm_num)]
    linarith
  · rw [div_le_iff₀ (by norm_num)]
    linarith

/-- C6: for a `peopleData` of `n` records and a page `p` with
`1 ≤ p ≤ ceil(n / 5)`, the rows `displayPeople` puts into the table are the rows
of the records at the indices `5 * (p - 1) .. min (5 * p) n - 1` in order,
between one and five of them; and the rows of the pages `1 .. ceil(n / 5)` put
one after the other are the rows of `peopleData`, each record once.  (With
`n = 0` there is no such page and nothing to concatenate.) -/
theorem displayPeople_pages (st : AppState) :
    (∀ p : Nat, 1 ≤ p → (p : Int) ≤ totalPages st.peopleData →
      ((displayPeople { st with currentPage := (p : Int) }).tableBody.length =
          min (5 * p) st.peopleData.length - 5 * (p - 1)) ∧
      1 ≤ (displayPeople { st with currentPage := (p : Int) }).tableBody.length ∧
      (displayPeople { st with currentPage := (p : Int) }).tableBody.length ≤ 5 ∧
      ∀ j, j < min (5 * p) st.peopleData.length - 5 * (p - 1) →
        (displayPeople { st with currentPage := (p : Int) }).tableBody[j]? =
          (st.peopleData[5 * (p - 1) + j]?).map personRow) ∧
    ((List.range (totalPages st.peopleData).toNat).map
        (fun i => (displayPeople { st with currentPage := ((i + 1 : Nat) : Int) }).tableBody)).flatten
      = st.peopleData.map personRow := by
  constructor
  · intro p hp1 hp2
    have hlt : 5 * (p - 1) < st.peopleData.length := by
      simp only [totalPages, peoplePerPage, Int.ofNat_eq_coe] at hp2
      have : p ≤ (st.peopleData.length + 4) / 5 := by exact_mod_cast hp2
      omega
    rw [displayPeople_page st p hp1 hlt]
    simp only [List.length_map, List.length_take, List.length_drop]
    refine ⟨by omega, by omega, by omega, ?_⟩
    intro j hj
    rw [List.getElem?_map, List.getElem?_take_of_lt (by omega), List.getElem?_drop]
  · have hpage : ∀ i ∈ List.range (totalPages st.peopleData).toNat,
        (displayPeople { st with currentPage := ((i + 1 : Nat) : Int) }).tableBody =
          ((st.peopleData.drop (5 * i)).take 5).map personRow := by
      intro i hi
      simp only [totalPages, peoplePerPage, Int.ofNat_eq_coe, Int.toNat_ofNat,
        List.mem_range] at hi
      have := displayPeople_page st (i + 1) (by omega) (by simp; omega)
      simpa using this
    rw [List.map_congr_left hpage]
    have := flatten_chunks_eq_take st.peopleData 5 (totalPages st.peopleData).toNat
    have hall : st.peopleData.take (5 * (totalPages st.peopleData).toNat) = st.peopleData := by
      apply List.take_of_length_le
      simp only [totalPages, peoplePerPage, Int.ofNat_eq_coe, Int.toNat_ofNat]
      omega
    rw [hall] at this
    calc _ = ((List.map (fun i => List.take 5 (List.drop (5 * i) st.peopleData))
            (List.range (totalPages st.peopleData).toNat)).map (List.map personRow)).flatten := by
          rw [List.map_map]; rfl
      _ = _ := by rw [← List.map_flatten, this]

theorem displayPeople_pages_witness :
    (displayPeople { sevenState with currentPage := ((2 : Nat) : Int) }).tableBody.length = 2 ∧
      (displayPeople { sevenState with currentPage := ((2 : Nat) : Int) }).tableBody[1]? =
        some (personRow (samplePerson 6)) :=
  have h := (displayPeople_pages sevenState).1 2 (by decide) (by decide)
  ⟨h.1, h.2.2.2 1 (by decide)⟩

/-! ## Pagination handlers -/

/-- C7: from a state with `1 ≤ currentPage ≤ totalPages` (so `peopleData` is not
empty) each of the four pagination handlers leads to a state with
`1 ≤ currentPage ≤ totalPages`; `jumpToFirstPage` sets `currentPage` to 1,
`jumpToLastPage` to `totalPages`, `previousPage` keeps page 1 and otherwise goes
one page down, `nextPage` keeps page `totalPages` and otherwise goes one page
up; and none of them changes `peopleData`, `sortCriteria` or `filterCriteria`. -/
theorem pagination_handlers (st : AppState) (h1 : 1 ≤ st.currentPage)
    (h2 : st.currentPage ≤ totalPages st.peopleData) :
    (∀ op ∈ [jumpToFirstPage, previousPage, nextPage, jumpToLastPage],
      1 ≤ (op st).currentPage ∧ (op st).currentPage ≤ totalPages (op st).peopleData ∧
      (op st).peopleData = st.peopleData ∧ (op st).sortCriteria = st.sortCriteria ∧
      (op st).filterCriteria = st.filterCriteria) ∧
    (jumpToFirstPage st).currentPage = 1 ∧
    (jumpToLastPage st).currentPage = totalPages st.peopleData ∧
    (st.currentPage = 1 → (previousPage st).currentPage = st.currentPage) ∧
    (st.currentPage ≠ 1 → (previousPage st).currentPage = st.currentPage - 1) ∧
    (st.currentPage = totalPages st.peopleData →
      (nextPage st).currentPage = st.currentPage) ∧
    (st.currentPage ≠ totalPages st.peopleData →
      (nextPage st).currentPage = st.currentPage + 1) := by
  have hfirst : (jumpToFirstPage st).currentPage = 1 := by
    simp [jumpToFirstPage, displayPeople_frame]
  have hlast : (jumpToLastPage st).currentPage = totalPages st.peopleData := by
    simp [jumpToLastPage, displayPeople_frame]
  have hprev : (previousPage st).currentPage =
      if st.currentPage > 1 then st.currentPage - 1 else st.currentPage := by
    unfold previousPage
    split_ifs <;> simp [displayPeople_frame]
  have hnext : (nextPage st).currentPage =
      if st.currentPage < totalPages st.peopleData then st.currentPage + 1
      else st.currentPage := by
    unfold nextPage
    split_ifs <;> simp [displayPeople_frame]
  have hframe : ∀ op ∈ [jumpToFirstPage, previousPage, nextPage, jumpToLastPage],
      (op st).peopleData = st.peopleData ∧ (op st).sortCriteria = st.sortCriteria ∧
      (op st).filterCriteria = st.filterCriteria := by
    intro op hop
    simp only [List.mem_cons, List.mem_singleton, List.not_mem_nil, or_false] at hop
    rcases hop with rfl | rfl | rfl | rfl
    · simp [jumpToFirstPage, displayPeople_frame]
    · unfold previousPage; split_ifs <;> simp [displayPeople_frame]
    · unfold nextPage; split_ifs <;> simp [displayPeople_frame]
    · simp [jumpToLastPage, displayPeople_frame]
  refine ⟨?_, hfirst, hlast, ?_, ?_, ?_, ?_⟩
  · intro op hop
    obtain ⟨hp, hs, hf⟩ := hframe op hop
    refine ⟨?_, ?_, hp, hs, hf⟩ <;> rw [hp] at * <;>
      simp only [List.mem_cons, List.mem_singleton, List.not_mem_nil, or_false] at hop <;>
      rcases hop with rfl | rfl | rfl | rfl <;>
      first
        | (rw [hfirst] <;> omega)
        | (rw [hlast] <;> omega)
        | (rw [hprev]; split_ifs <;> omega)
        | (rw [hnext]; split_ifs <;> omega)
  · intro h; rw [hprev]; split_ifs <;> omega
  · intro h; rw [hprev]; split_ifs <;> omega
  · intro h; rw [hnext]; split_ifs <;> omega
  · intro h; rw [hnext]; split_ifs <;> omega

theorem pagination_handlers_witness :
    (nextPage sevenState).currentPage = sevenState.currentPage + 1 ∧
      (previousPage sevenState).currentPage = sevenState.currentPage ∧
      (jumpToLastPage sevenState).currentPage = 2 :=
  have h := pagination_handlers sevenState (by decide) (by decide)
  ⟨h.2.2.2.2.2.2 (by decide), h.2.2.2.1 (by decide), h.2.2.1.trans (by decide)⟩

/-! ## The table after a fetch -/

/-- The state `fetchPeopleData` returns, in terms of the loop's result. -/
theorem fetchPeopleData_eq_some (fetch : String → Response) (fuel : Nat) (st st' : AppState)
    (h : fetchPeopleData fetch fuel st = some st') :
    ∃ out : LoopResult,
      out = pagingLoop fetch (queryParams st.sortCriteria st.filterCriteria) fuel 0 []
        st.requests ∧
      out.finished = true ∧
      st' = hideLoader
        (if out.peopleData.length = 0 then
          { showLoader st with peopleData := out.peopleData, requests := out.requests }
        else displayPeople
          { showLoader st with
            peopleData := out.peopleData, requests := out.requests, currentPage := 1 }) := by
  by_cases hfin : (pagingLoop fetch (queryParams st.sortCriteria st.filterCriteria) fuel 0 []
      st.requests).finished = true
  · refine ⟨_, rfl, hfin, ?_⟩
    unfold fetchPeopleData at h
    simp only [showLoader, hfin, if_true, Option.some.injEq] at h
    rw [← h]
    rfl
  · rw [fetchPeopleData_unfinished fetch fuel st (by simpa using hfin)] at h
    exact absurd h (by simp)

/-- C8 (amended): a completed run of `fetchPeopleData` that fetched at least one
record leaves `currentPage = 1` and shows the rows of the first `min 5 n` records
of the newly fetched `peopleData`. -/
theorem fetchPeopleData_shows_first_page (fetch : String → Response) (fuel : Nat)
    (st st' : AppState) (h : fetchPeopleData fetch fuel st = some st')
    (hn : st'.peopleData ≠ []) :
    st'.currentPage = 1 ∧
      st'.tableBody = (st'.peopleData.take 5).map personRow ∧
      st'.tableBody.length = min 5 st'.peopleData.length := by
  obtain ⟨out, _, _, hst⟩ := fetchPeopleData_eq_some fetch fuel st st' h
  have hpd : st'.peopleData = out.peopleData := by
    rw [hst]; simp only [hideLoader]; split_ifs <;> simp [displayPeople_frame, showLoader]
  have hlen : out.peopleData.length ≠ 0 := by
    rw [← hpd]; exact fun h0 => hn (List.length_eq_zero.mp h0)
  rw [if_neg hlen] at hst
  have hpos : 0 < out.peopleData.length := Nat.pos_of_ne_zero hlen
  have hrows := displayPeople_page
    { showLoader st with peopleData := out.peopleData, requests := out.requests } 1
    (le_refl _) (by simpa using hpos)
  simp only [Nat.sub_self, Nat.mul_zero, List.drop_zero, Nat.cast_one] at hrows
  have htb : st'.tableBody = (out.peopleData.take 5).map personRow := by
    rw [hst]; exact hrows
  refine ⟨?_, ?_, ?_⟩
  · rw [hst]; simp [hideLoader, displayPeople_frame]
  · rw [htb, hpd]
  · rw [htb, hpd]; simp

theorem fetchPeopleData_shows_first_page_witness :
    ∃ st', fetchPeopleData twelveEndpoint 2 pageTwoState = some st' ∧
      st'.currentPage = 1 ∧
      st'.tableBody = (st'.peopleData.take 5).map personRow :=
  ⟨(fetchPeopleData twelveEndpoint 2 pageTwoState).get (by decide),
    by decide,
    (fetchPeopleData_shows_first_page twelveEndpoint 2 pageTwoState _ (by decide)
      (by decide)).1,
    (fetchPeopleData_shows_first_page twelveEndpoint 2 pageTwoState _ (by decide)
      (by decide)).2.1⟩

/-- A completed run that fetched no record does not touch `currentPage` or the
table: the script only logs `No people data fetched`. -/
theorem fetchPeopleData_no_records_frame (fetch : String → Response) (fuel : Nat)
    (st st' : AppState) (h : fetchPeopleData fetch fuel st = some st')
    (hn : st'.peopleData = []) :
    st'.currentPage = st.currentPage ∧ st'.tableBody = st.tableBody := by
  obtain ⟨out, _, _, hst⟩ := fetchPeopleData_eq_some fetch fuel st st' h
  have hpd : st'.peopleData = out.peopleData := by
    rw [hst]; simp only [hideLoader]; split_ifs <;> simp [displayPeople_frame, showLoader]
  have hlen : out.peopleData.length = 0 := by rw [← hpd, hn]; rfl
  rw [if_pos hlen] at hst
  rw [hst]
  exact ⟨rfl, rfl⟩

/-- C8 (as stated, refuted): with page 2 of seven records on screen, a fetch that
finds no record returns with `currentPage` still 2 and the two rows of the
earlier fetch still in the table, although `peopleData` is now empty. -/
theorem fetchPeopleData_no_records_keeps_rows :
    ∃ st', fetchPeopleData noMatchEndpoint 1 pageTwoState = some st' ∧
      st'.peopleData = [] ∧
      st'.currentPage = 2 ∧
      st'.tableBody = [personRow (samplePerson 5), personRow (samplePerson 6)] ∧
      ¬ (st'.currentPage = 1 ∧ st'.tableBody = (st'.peopleData.take 5).map personRow) :=
  ⟨(fetchPeopleData noMatchEndpoint 1 pageTwoState).get (by decide),
    by decide, by decide, by decide, by decide, by decide⟩

/-! ## The query string of the page -/

/-- C9: the parameters `updateQueryParams` writes for a state, read by
`getQueryParams` on a page load (both lists empty, the query string as written):
a first sort criterion with non-empty column and order comes back as the only
sort criterion, with that column and order; a first filter criterion with
non-empty column and value comes back as the only filter criterion, with that
column and value and the relation `eq`; and an empty list writes none of its
parameters and is empty after reading. -/
theorem url_round_trip (st load : AppState) (sortNow filterNow : Nat)
    (hsort : load.sortCriteria = []) (hfilter : load.filterCriteria = [])
    (hsearch : load.search = (updateQueryParams st).search) :
    (∀ c cs, st.sortCriteria = c :: cs → c.column ≠ "" → c.order ≠ "" →
      (getQueryParams sortNow filterNow load).sortCriteria =
        [{ id := sortNow, column := c.column, order := c.order }]) ∧
    (st.sortCriteria = [] →
      paramsGet (updateQueryParams st).search "sortField" = none ∧
      paramsGet (updateQueryParams st).search "sortOrder" = none ∧
      (getQueryParams sortNow filterNow load).sortCriteria = []) ∧
    (∀ c cs, st.filterCriteria = c :: cs → c.column ≠ "" → c.value ≠ "" →
      (getQueryParams sortNow filterNow load).filterCriteria =
        [{ id := filterNow, column := c.column, relation := "eq", value := c.value }]) ∧
    (st.filterCriteria = [] →
      paramsGet (updateQueryParams st).search "filterField" = none ∧
      paramsGet (updateQueryParams st).search "filterValue" = none ∧
      (getQueryParams sortNow filterNow load).filterCriteria = []) := by
  refine ⟨?_, ?_, ?_, ?_⟩
  · intro c cs hc h1 h2
    cases hf : st.filterCriteria <;>
      simp [getQueryParams, hsearch, updateQueryParams, urlParams, hc, hf, paramsSet,
        paramsGet, paramsReplace, orElse, h1, h2, hsort, hfilter]
    all_goals (try split_ifs) <;> simp [hsort, hfilter]
  · intro hc
    cases hf : st.filterCriteria <;>
      simp [getQueryParams, hsearch, updateQueryParams, urlParams, hc, hf, paramsSet,
        paramsGet, paramsReplace, orElse, hsort, hfilter]
    all_goals (try split_ifs) <;> simp [hsort, hfilter]
  · intro c cs hc h1 h2
    cases hs : st.sortCriteria <;>
      simp [getQueryParams, hsearch, updateQueryParams, urlParams, hc, hs, paramsSet,
        paramsGet, paramsReplace, orElse, h1, h2, hsort, hfilter]
  · intro hc
    cases hs : st.sortCriteria <;>
      simp [getQueryParams, hsearch, updateQueryParams, urlParams, hc, hs, paramsSet,
        paramsGet, paramsReplace, orElse, hsort, hfilter]
    all_goals (try split_ifs) <;> simp [hsort, hfilter]

theorem url_round_trip_witness :
    (getQueryParams 7 8
        { initialState with search := (updateQueryParams criteriaState).search }).sortCriteria =
      [{ id := 7, column := "LastName", order := "desc" }] ∧
    (getQueryParams 7 8
        { initialState with search := (updateQueryParams criteriaState).search }).filterCriteria =
      [{ id := 8, column := "FirstName", relation := "eq", value := "an" }] :=
  have h := url_round_trip criteriaState
    { initialState with search := (updateQueryParams criteriaState).search } 7 8 rfl rfl rfl
  ⟨h.1 _ _ rfl (by decide) (by decide), h.2.2.1 _ _ rfl (by decide) (by decide)⟩

/-! ## Reset and refresh -/

/-- Every URL the loop adds to the log is the request URL at the next multiple
of ten, with the same query parameters. -/
theorem pagingLoop_requests (fetch : String → Response) (qp : List String) (fuel : Nat) :
    ∀ (j : Nat) (acc : List Person) (reqs : List String),
      ∃ m, (pagingLoop fetch qp fuel (10 * j) acc reqs).requests =
        reqs ++ (List.range' j m).map (fun i => requestUrl (10 * i) qp) := by
  induction fuel with
  | zero => intro j acc reqs; exact ⟨0, by simp [pagingLoop]⟩
  | succ fuel ih =>
    intro j acc reqs
    rw [pagingLoop]
    cases hf : fetch (requestUrl (10 * j) qp) with
    | ok value =>
      simp only
      split_ifs
      · exact ⟨1, by simp⟩
      · obtain ⟨m, hm⟩ := ih (j + 1) (acc ++ value.getD []) (reqs ++ [requestUrl (10 * j) qp])
        refine ⟨m + 1, ?_⟩
        have h10 : 10 * j + pageSize = 10 * (j + 1) := by simp [pageSize]; omega
        rw [h10, hm]
        simp [List.range'_succ]
    | notOk status => exact ⟨1, by simp⟩
    | thrown => exact ⟨1, by simp⟩

/-- A completed `fetchPeopleData` keeps both criteria lists and the query string,
and adds to the log only request URLs built from the criteria it started with. -/
theorem fetchPeopleData_frame (fetch : String → Response) (fuel : Nat) (st st' : AppState)
    (h : fetchPeopleData fetch fuel st = some st') :
    st'.sortCriteria = st.sortCriteria ∧ st'.filterCriteria = st.filterCriteria ∧
      st'.search = st.search ∧
      ∃ m, st'.requests = st.requests ++ (List.range m).map
        (fun k => requestUrl (10 * k) (queryParams st.sortCriteria st.filterCriteria)) := by
  obtain ⟨out, hout, hfin, _⟩ := fetchPeopleData_eq_some fetch fuel st st' h
  obtain ⟨s2, hs2, hp, hr, hsc, hfc, hse⟩ := fetchPeopleData_finished fetch fuel st
    (by rw [← hout]; exact hfin)
  rw [h] at hs2
  cases hs2
  refine ⟨hsc, hfc, hse, ?_⟩
  obtain ⟨m, hm⟩ := pagingLoop_requests fetch
    (queryParams st.sortCriteria st.filterCriteria) fuel 0 [] st.requests
  exact ⟨m, by rw [hr, hm, List.range_eq_range']⟩

theorem hasName_filter_orderby (x : String) : hasName "$filter" ("$orderby=" ++ x) = false := by
  simp [hasName]

theorem orderByParams_not_filter (sc : List SortCriterion) :
    (orderByParams sc).filter (hasName "$filter") = [] := by
  unfold orderByParams
  split_ifs <;> simp [hasName_filter_orderby]

theorem requestUrl_nil (skip : Nat) :
    requestUrl skip [] = baseUrl ++ "?$skip=" ++ toString skip ++ "&$top=10" := by
  have htop : toString pageSize = "10" := by decide
  have h10 : ("&$top=10" : String) = "&$top=" ++ "10" := by decide
  simp only [requestUrl, List.length_nil, gt_iff_lt, Nat.lt_irrefl, if_false, htop, h10,
    String.append_assoc]

/-- C10: `resetSort` empties `sortCriteria` and keeps `filterCriteria`,
`resetFilter` empties `filterCriteria` and keeps `sortCriteria`, `refreshData`
empties both: this holds before the fetch starts and in the state a completed
fetch returns.  The URL written has no `sortField` / `sortOrder` (resp.
`filterField` / `filterValue`) parameter for the emptied list, and every request
of the fetch is built from query parameters without `$orderby` (resp. `$filter`)
for it; after `refreshData` the requests carry `$skip` and `$top` only. -/
theorem reset_and_refresh (fetch : String → Response) (fuel : Nat) (st : AppState) :
    ((resetSortBegin st).sortCriteria = [] ∧
      (resetSortBegin st).filterCriteria = st.filterCriteria ∧
      paramsGet (resetSortBegin st).search "sortField" = none ∧
      paramsGet (resetSortBegin st).search "sortOrder" = none ∧
      (queryParams [] st.filterCriteria).filter (hasName "$orderby") = [] ∧
      ∀ st', resetSort fetch fuel st = some st' →
        st'.sortCriteria = [] ∧ st'.filterCriteria = st.filterCriteria ∧
        st'.search = (resetSortBegin st).search ∧
        ∃ m, st'.requests = st.requests ++ (List.range m).map
          (fun k => requestUrl (10 * k) (queryParams [] st.filterCriteria))) ∧
    ((resetFilterBegin st).filterCriteria = [] ∧
      (resetFilterBegin st).sortCriteria = st.sortCriteria ∧
      paramsGet (resetFilterBegin st).search "filterField" = none ∧
      paramsGet (resetFilterBegin st).search "filterValue" = none ∧
      (queryParams st.sortCriteria []).filter (hasName "$filter") = [] ∧
      ∀ st', resetFilter fetch fuel st = some st' →
        st'.filterCriteria = [] ∧ st'.sortCriteria = st.sortCriteria ∧
        st'.search = (resetFilterBegin st).search ∧
        ∃ m, st'.requests = st.requests ++ (List.range m).map
          (fun k => requestUrl (10 * k) (queryParams st.sortCriteria []))) ∧
    ((refreshDataBegin st).sortCriteria = [] ∧
      (refreshDataBegin st).filterCriteria = [] ∧
      (refreshDataBegin st).search = [] ∧
      queryParams [] [] = [] ∧
      ∀ st', refreshData fetch fuel st = some st' →
        st'.sortCriteria = [] ∧ st'.filterCriteria = [] ∧ st'.search = [] ∧
        ∃ m, st'.requests = st.requests ++ (List.range m).map
          (fun k => baseUrl ++ "?$skip=" ++ toString (10 * k) ++ "&$top=10")) := by
  refine ⟨⟨rfl, rfl, ?_, ?_, ?_, ?_⟩, ⟨rfl, rfl, ?_, ?_, ?_, ?_⟩, ⟨rfl, rfl, rfl, rfl, ?_⟩⟩
  · cases hf : st.filterCriteria <;>
      simp [resetSortBegin, updateQueryParams, urlParams, showLoader, hf, paramsSet,
        paramsGet, paramsReplace]
  · cases hf : st.filterCriteria <;>
      simp [resetSortBegin, updateQueryParams, urlParams, showLoader, hf, paramsSet,
        paramsGet, paramsReplace]
  · simp [queryParams, orderByParams, filterParams_not_orderby]
  · intro st' h
    obtain ⟨h1, h2, h3, m, h4⟩ := fetchPeopleData_frame fetch fuel (resetSortBegin st) st' h
    exact ⟨h1, h2, h3, m, h4⟩
  · cases hs : st.sortCriteria <;>
      simp [resetFilterBegin, updateQueryParams, urlParams, showLoader, hs, paramsSet,
        paramsGet, paramsReplace]
  · cases hs : st.sortCriteria <;>
      simp [resetFilterBegin, updateQueryParams, urlParams, showLoader, hs, paramsSet,
        paramsGet, paramsReplace]
  · simp [queryParams, filterParams, orderByParams_not_filter]
  · intro st' h
    obtain ⟨h1, h2, h3, m, h4⟩ := fetchPeopleData_frame fetch fuel (resetFilterBegin st) st' h
    exact ⟨h2, h1, h3, m, h4⟩
  · intro st' h
    obtain ⟨h1, h2, h3, m, h4⟩ := fetchPeopleData_frame fetch fuel (refreshDataBegin st) st' h
    refine ⟨h1, h2, h3, m, ?_⟩
    rw [h4]
    have hq : queryParams (refreshDataBegin st).sortCriteria
        (refreshDataBegin st).filterCriteria = [] := rfl
    simp only [hq, requestUrl_nil]
    rfl

theorem reset_and_refresh_witness :
    ∃ st', resetSort twelveEndpoint 1 criteriaState = some st' ∧
      st'.sortCriteria = [] ∧ st'.filterCriteria = criteriaState.filterCriteria :=
  have h := ((reset_and_refresh twelveEndpoint 1 criteriaState).1.2.2.2.2.2
    ((resetSort twelveEndpoint 1 criteriaState).get (by decide)) (by decide))
  ⟨_, by decide, h.1, h.2.1⟩

/-! ## Pagination on an empty result -/

/-- From `currentPage ≥ 1`, `jumpToFirstPage`, `previousPage` and `nextPage` keep
`currentPage ≥ 1` for every `peopleData`, and `jumpToLastPage` does so when
`peopleData` is not empty. -/
theorem pagination_keeps_page_positive (st : AppState) (h : 1 ≤ st.currentPage) :
    1 ≤ (jumpToFirstPage st).currentPage ∧ 1 ≤ (previousPage st).currentPage ∧
      1 ≤ (nextPage st).currentPage ∧
      (st.peopleData ≠ [] → 1 ≤ (jumpToLastPage st).currentPage) := by
  refine ⟨?_, ?_, ?_, ?_⟩
  · simp [jumpToFirstPage, displayPeople_frame]
  · unfold previousPage
    split_ifs <;> (try simp only [displayPeople_frame]) <;> omega
  · unfold nextPage
    split_ifs <;> (try simp only [displayPeople_frame]) <;> omega
  · intro hne
    have hpos : 0 < st.peopleData.length := List.length_pos.mpr hne
    simp only [jumpToLastPage, displayPeople_frame, totalPages, peoplePerPage,
      Int.ofNat_eq_coe]
    have : 1 ≤ (st.peopleData.length + (5 - 1)) / 5 := by omega
    exact_mod_cast this

/-- C12 (the script lets `currentPage` drop below 1): after a fetch that found no
record, with page 2 of an earlier fetch still on screen, `currentPage` is 2 and
`peopleData` is empty; `jumpToLastPage` then sets `currentPage` to
`Math.ceil(0 / 5) = 0` and the table to the single row `No people data
available`. -/
theorem jumpToLastPage_empty_sets_page_zero :
    ∃ st, fetchPeopleData noMatchEndpoint 1 pageTwoState = some st ∧
      1 ≤ st.currentPage ∧ st.peopleData = [] ∧
      (jumpToLastPage st).currentPage = 0 ∧
      (jumpToLastPage st).tableBody = [Row.noData] ∧
      ¬ 1 ≤ (jumpToLastPage st).currentPage :=
  ⟨(fetchPeopleData noMatchEndpoint 1 pageTwoState).get (by decide),
    by decide, by decide, by decide, by decide, by decide, by decide⟩

/-! ## The filter popup -/

theorem length_modifyCriterion (k : Nat) (f : FilterCriterion → FilterCriterion)
    (l : List FilterCriterion) : (modifyCriterion k f l).length = l.length := by
  unfold modifyCriterion
  split <;> simp

theorem getElem?_modifyCriterion (k j : Nat) (f : FilterCriterion → FilterCriterion)
    (l : List FilterCriterion) :
    (modifyCriterion k f l)[j]? = if j = k then (l[k]?).map f else l[j]? := by
  unfold modifyCriterion
  split
  · rename_i c hc
    have hk : k < l.length := (List.getElem?_eq_some.mp hc).1
    by_cases hj : j = k
    · subst hj
      simp [hc, List.getElem?_set, hk]
    · simp [hj, List.getElem?_set_ne (Ne.symm hj)]
  · rename_i hc
    by_cases hj : j = k
    · subst hj; simp [hc]
    · simp [hj]

theorem map_id_modifyCriterion (k : Nat) (f : FilterCriterion → FilterCriterion)
    (l : List FilterCriterion) (hf : ∀ c, (f c).id = c.id) :
    (modifyCriterion k f l).map (fun c => c.id) = l.map (fun c => c.id) := by
  apply List.ext_getElem?
  intro j
  simp only [List.getElem?_map, getElem?_modifyCriterion]
  split_ifs with hj
  · subst hj
    cases l[j]? <;> simp [hf]
  · rfl

/-- An object of the modified list is the image of the object at the same
position, or that object itself away from position `k`. -/
theorem getElem?_modifyCriterion_some (k j : Nat) (f : FilterCriterion → FilterCriterion)
    (l : List FilterCriterion) (c' : FilterCriterion)
    (h : (modifyCriterion k f l)[j]? = some c') :
    ∃ c, l[j]? = some c ∧ ((j = k ∧ c' = f c) ∨ (j ≠ k ∧ c' = c)) := by
  rw [getElem?_modifyCriterion] at h
  split_ifs at h with hj
  · subst hj
    cases hc : l[j]? with
    | none => simp [hc] at h
    | some c =>
      simp only [hc, Option.map_some', Option.some.injEq] at h
      exact ⟨c, rfl, Or.inl ⟨rfl, h.symm⟩⟩
  · exact ⟨c', h, Or.inr ⟨hj, rfl⟩⟩

/-- With pairwise distinct ids an id names one object. -/
theorem ref_eq_of_id_eq (objects : List FilterCriterion)
    (hnodup : (objects.map (fun c => c.id)).Nodup) (r r' : Nat) (c c' : FilterCriterion)
    (hr : objects[r]? = some c) (hr' : objects[r']? = some c') (hid : c.id = c'.id) :
    r = r' := by
  obtain ⟨hlt, hc⟩ := List.getElem?_eq_some.mp hr
  obtain ⟨hlt', hc'⟩ := List.getElem?_eq_some.mp hr'
  have h1 : r < (objects.map (fun c => c.id)).length := by simpa using hlt
  have h2 : r' < (objects.map (fun c => c.id)).length := by simpa using hlt'
  exact (@List.Nodup.getElem_inj_iff _ _ hnodup r h1 r' h2).mp (by simp [hc, hc', hid])

theorem findCriterion_some (objects : List FilterCriterion) (criterionId : Nat)
    (refs : List Nat) (r : Nat) (h : findCriterion objects criterionId refs = some r) :
    r ∈ refs ∧ ∃ c, objects[r]? = some c ∧ c.id = criterionId := by
  induction refs with
  | nil => simp [findCriterion] at h
  | cons a as ih =>
    simp only [findCriterion] at h
    split at h
    · rename_i c hc
      split_ifs at h with hid
      · simp only [Option.some.injEq] at h
        subst h
        exact ⟨List.mem_cons_self _ _, c, hc, hid⟩
      · obtain ⟨hm, hex⟩ := ih h
        exact ⟨List.mem_cons_of_mem _ hm, hex⟩
    · obtain ⟨hm, hex⟩ := ih h
      exact ⟨List.mem_cons_of_mem _ hm, hex⟩

theorem removeDiv_sublist (criterionId : Nat) (divs : List FilterDiv) :
    (removeDiv criterionId divs).Sublist divs := by
  induction divs with
  | nil => exact List.Sublist.refl _
  | cons d ds ih =>
    simp only [removeDiv]
    split_ifs
    · exact List.sublist_cons_self d ds
    · exact ih.cons₂ d

theorem popupDivs_mem (objects : List FilterCriterion) (refs : List Nat) (div : FilterDiv)
    (h : div ∈ popupDivs objects refs) :
    ∃ r, r ∈ refs ∧ ∃ c, objects[r]? = some c ∧ div.dataId = c.id ∧
      div.binding = Binding.direct r ∧ div.relationOptions = relationsOfColumn c.column := by
  induction refs with
  | nil => simp [popupDivs] at h
  | cons a as ih =>
    simp only [popupDivs] at h
    split at h
    · rename_i c hc
      split at h
      · rename_i t ht
        rcases List.mem_cons.mp h with rfl | h
        · exact ⟨a, List.mem_cons_self _ _, c, hc, rfl, rfl, by simp [relationsOfColumn, ht]⟩
        · obtain ⟨r, hr, hex⟩ := ih h
          exact ⟨r, List.mem_cons_of_mem _ hr, hex⟩
      · simp at h
    · simp at h

theorem popupDivs_nodup (objects : List FilterCriterion)
    (hnodup : (objects.map (fun c => c.id)).Nodup) (refs : List Nat) (hrefs : refs.Nodup) :
    ((popupDivs objects refs).map (fun d => d.dataId)).Nodup := by
  induction refs with
  | nil => simp [popupDivs]
  | cons a as ih =>
    have ha : a ∉ as := (List.nodup_cons.mp hrefs).1
    have has : as.Nodup := (List.nodup_cons.mp hrefs).2
    simp only [popupDivs]
    split
    · rename_i c hc
      split
      · rename_i t ht
        simp only [List.map_cons, List.nodup_cons]
        refine ⟨?_, ih has⟩
        intro hmem
        obtain ⟨d, hd, hdid⟩ := List.mem_map.mp hmem
        obtain ⟨r, hr, c', hc', hid, _, _⟩ := popupDivs_mem objects as d hd
        have : r = a := ref_eq_of_id_eq objects hnodup r a c' c hc' hc (by rw [← hid, hdid])
        exact ha (this ▸ hr)
      · simp
    · simp

theorem PopupInvariant.found {loaded : Nat} {p : FilterPopup}
    (hinv : PopupInvariant loaded p) {div : FilterDiv} (hdiv : div ∈ p.divs) {r : Nat}
    (h : criterionRef div.binding p = some r) :
    ∃ c, p.objects[r]? = some c ∧ c.id = div.dataId := by
  obtain ⟨_, _, _, _, _, hdir, hbyid, _, _⟩ := hinv
  cases hb : div.binding with
  | byId criterionId =>
    rw [hb] at h
    obtain ⟨_, c, hc, hid⟩ := findCriterion_some _ _ _ _ h
    exact ⟨c, hc, by rw [hid, hbyid div hdiv criterionId hb]⟩
  | direct ref =>
    rw [hb] at h
    simp only [PeopleViewer.criterionRef, Option.some.injEq] at h
    subst h
    exact hdir div hdiv ref hb

theorem loaded_length_le_one (sortNow filterNow : Nat) (search : List (String × String)) :
    (popupAtLoad sortNow filterNow search).objects.length ≤ 1 := by
  simp only [popupAtLoad, getQueryParams, initialState]
  split_ifs <;> simp

theorem PopupInvariant.atLoad (sortNow filterNow : Nat) (search : List (String × String)) :
    PopupInvariant (popupAtLoad sortNow filterNow search).objects.length
      (popupAtLoad sortNow filterNow search) := by
  have hlen := loaded_length_le_one sortNow filterNow search
  refine ⟨?_, ?_, ?_, ?_, ?_, ?_, ?_, ?_, ?_⟩
  · generalize (popupAtLoad sortNow filterNow search).objects = l at hlen
    match l, hlen with
    | [], _ => simp
    | [a], _ => simp
  · intro ref href
    simpa [popupAtLoad] using href
  · simp [popupAtLoad, List.nodup_range]
  · simp [popupAtLoad]
  · intro div hdiv; simp [popupAtLoad] at hdiv
  · intro div hdiv; simp [popupAtLoad] at hdiv
  · intro div hdiv; simp [popupAtLoad] at hdiv
  · intro div hdiv; simp [popupAtLoad] at hdiv
  · intro ref c hle hc
    have := (List.getElem?_eq_some.mp hc).1
    omega

theorem PopupInvariant.afterShowFilter {loaded : Nat} {p : FilterPopup}
    (hinv : PopupInvariant loaded p) : PopupInvariant loaded (showFilterPopup p) := by
  obtain ⟨hids, hlt, hrefs, _, _, _, _, _, hvalid⟩ := hinv
  refine ⟨hids, hlt, hrefs, popupDivs_nodup _ hids _ hrefs, ?_, ?_, ?_, ?_, hvalid⟩
  · intro div hdiv
    obtain ⟨r, _, c, hc, hid, _, _⟩ := popupDivs_mem _ _ div hdiv
    rw [hid]
    exact List.mem_map.mpr ⟨c, List.mem_iff_getElem?.mpr ⟨_, hc⟩, rfl⟩
  · intro div hdiv ref hb
    obtain ⟨r, _, c, hc, hid, hbind, _⟩ := popupDivs_mem _ _ div hdiv
    rw [hbind] at hb
    cases hb
    exact ⟨c, hc, hid.symm⟩
  · intro div hdiv criterionId hb
    obtain ⟨r, _, c, hc, hid, hbind, _⟩ := popupDivs_mem _ _ div hdiv
    rw [hbind] at hb
    cases hb
  · intro div hdiv ref c' _ hc' hid'
    obtain ⟨r, _, c, hc, hid, _, hopt⟩ := popupDivs_mem _ _ div hdiv
    have : ref = r := ref_eq_of_id_eq _ hids ref r c' c hc' hc (by rw [hid', hid])
    subst this
    have hcc : c' = c := by
      have h := hc'.symm.trans hc
      exact Option.some.inj h
    rw [hopt, hcc]

theorem PopupInvariant.afterShowSort {loaded : Nat} {p : FilterPopup}
    (hinv : PopupInvariant loaded p) : PopupInvariant loaded (showSortPopup p) := by
  obtain ⟨hids, hlt, hrefs, _, _, _, _, _, hvalid⟩ := hinv
  refine ⟨hids, hlt, hrefs, by simp [PeopleViewer.showSortPopup], ?_, ?_, ?_, ?_, hvalid⟩ <;>
    · intro div hdiv
      simp [PeopleViewer.showSortPopup] at hdiv

theorem PopupInvariant.afterClear {loaded : Nat} {p : FilterPopup}
    (hinv : PopupInvariant loaded p) : PopupInvariant loaded (clearFilterCriteria p) := by
  obtain ⟨hids, _, _, hdivs, hdid, hdir, hbyid, hopts, hvalid⟩ := hinv
  exact ⟨hids, by simp [PeopleViewer.clearFilterCriteria],
    by simp [PeopleViewer.clearFilterCriteria], hdivs, hdid, hdir, hbyid, hopts, hvalid⟩

theorem PopupInvariant.afterDelete {loaded : Nat} {p : FilterPopup}
    (hinv : PopupInvariant loaded p) (id : Nat) :
    PopupInvariant loaded (deleteFilterCriteria id p) := by
  obtain ⟨hids, hlt, hrefs, hdivs, hdid, hdir, hbyid, hopts, hvalid⟩ := hinv
  have hsub := removeDiv_sublist id p.divs
  refine ⟨hids, ?_, ?_, ?_, ?_, ?_, ?_, ?_, hvalid⟩
  · intro ref href
    exact hlt ref (List.mem_of_mem_filter href)
  · exact hrefs.filter _
  · exact hdivs.sublist (hsub.map _)
  · intro div hdiv; exact hdid div (hsub.subset hdiv)
  · intro div hdiv; exact hdir div (hsub.subset hdiv)
  · intro div hdiv; exact hbyid div (hsub.subset hdiv)
  · intro div hdiv; exact hopts div (hsub.subset hdiv)

theorem getElem?_append_singleton_some {α : Type} (l : List α) (a c : α) (r : Nat)
    (h : (l ++ [a])[r]? = some c) :
    (r < l.length ∧ l[r]? = some c) ∨ (r = l.length ∧ c = a) := by
  by_cases hr : r < l.length
  · rw [List.getElem?_append_left hr] at h
    exact Or.inl ⟨hr, h⟩
  · rw [List.getElem?_append_right (by omega)] at h
    have h0 : r - l.length = 0 := by
      by_contra hne
      rw [List.getElem?_eq_none (by simp; omega)] at h
      exact absurd h (by simp)
    rw [h0] at h
    simp only [List.getElem?_cons_zero, Option.some.injEq] at h
    exact Or.inr ⟨by omega, h.symm⟩

theorem PopupInvariant.afterAdd {loaded : Nat} {p : FilterPopup}
    (hinv : PopupInvariant loaded p) (now : Nat) (hfresh : ∀ c ∈ p.objects, c.id ≠ now) :
    PopupInvariant loaded (addFilterCriteria now p) := by
  unfold PeopleViewer.addFilterCriteria
  split_ifs with hpresent
  swap
  · exact hinv
  obtain ⟨hids, hlt, hrefs, hdivs, hdid, hdir, hbyid, hopts, hvalid⟩ := hinv
  have hnow : now ∉ p.objects.map (fun c => c.id) := by
    intro hmem
    obtain ⟨c, hc, hid⟩ := List.mem_map.mp hmem
    exact hfresh c hc hid
  have hnowdiv : ∀ div ∈ p.divs, div.dataId ≠ now := by
    intro div hdiv heq
    exact hnow (heq ▸ hdid div hdiv)
  refine ⟨?_, ?_, ?_, ?_, ?_, ?_, ?_, ?_, ?_⟩
  · simp only [List.map_append, List.map_cons, List.map_nil]
    rw [List.nodup_append]
    refine ⟨hids, by simp, ?_⟩
    intro x hx hx'
    simp only [List.mem_singleton] at hx'
    exact hnow (hx' ▸ hx)
  · intro ref href
    simp only [List.mem_append, List.mem_singleton, List.length_append, List.length_cons,
      List.length_nil] at href ⊢
    rcases href with href | rfl
    · have := hlt ref href; omega
    · omega
  · simp only
    rw [List.nodup_append]
    refine ⟨hrefs, by simp, ?_⟩
    intro x hx hx'
    simp only [List.mem_singleton] at hx'
    have := hlt x hx
    omega
  · simp only [List.map_append, List.map_cons, List.map_nil]
    rw [List.nodup_append]
    refine ⟨hdivs, by simp, ?_⟩
    intro x hx hx'
    simp only [List.mem_singleton] at hx'
    obtain ⟨div, hdiv, hid⟩ := List.mem_map.mp hx
    exact hnowdiv div hdiv (hid.trans hx')
  · intro div hdiv
    simp only [List.mem_append, List.mem_singleton, List.map_append, List.map_cons,
      List.map_nil] at hdiv ⊢
    rcases hdiv with hdiv | rfl
    · exact Or.inl (hdid div hdiv)
    · exact Or.inr rfl
  · intro div hdiv ref hb
    simp only [List.mem_append, List.mem_singleton] at hdiv
    rcases hdiv with hdiv | rfl
    · obtain ⟨c, hc, hid⟩ := hdir div hdiv ref hb
      have hr : ref < p.objects.length := (List.getElem?_eq_some.mp hc).1
      exact ⟨c, by simp only; rw [List.getElem?_append_left hr]; exact hc, hid⟩
    · cases hb
  · intro div hdiv criterionId hb
    simp only [List.mem_append, List.mem_singleton] at hdiv
    rcases hdiv with hdiv | rfl
    · exact hbyid div hdiv criterionId hb
    · simp only [Binding.byId.injEq] at hb
      exact hb.symm
  · intro div hdiv ref c hle hc hid
    simp only [List.mem_append, List.mem_singleton] at hdiv
    rcases getElem?_append_singleton_some _ _ _ _ hc with ⟨_, hc⟩ | ⟨_, rfl⟩
    · rcases hdiv with hdiv | rfl
      · exact hopts div hdiv ref c hle hc hid
      · exact absurd hid (hfresh c (List.getElem?_mem hc))
    · rcases hdiv with hdiv | rfl
      · exact absurd hid.symm (hnowdiv div hdiv)
      · rfl
  · intro ref c hle hc
    rcases getElem?_append_singleton_some _ _ _ _ hc with ⟨_, hc⟩ | ⟨_, rfl⟩
    · exact hvalid ref c hle hc
    · refine ⟨?_, ?_⟩
      · show "UserName" ∈ columnOptions
        decide
      · show (relationsOfColumn "UserName").headD "" ∈ relationsOfColumn "UserName"
        decide

/-- An offered column is a key of `columnTypes`, and its type has a first
relation. -/
theorem columnOptions_relations (column : String) (h : column ∈ columnOptions) :
    ∃ type first others, columnTypes column = some type ∧
      relationsByType type = first :: others ∧
      relationsOfColumn column = first :: others ∧
      newRelationsOf column = some (first :: others) := by
  simp only [columnOptions, List.mem_cons, List.mem_singleton, List.not_mem_nil,
    or_false] at h
  rcases h with rfl | rfl | rfl | rfl | rfl | rfl <;>
    exact ⟨_, _, _, rfl, rfl, rfl, rfl⟩

/-- Assignments to an object that keep its id and column, and give it a relation
of its column's type, keep the invariant. -/
theorem PopupInvariant.assign {loaded : Nat} {p : FilterPopup}
    (hinv : PopupInvariant loaded p) (k : Nat) (f : FilterCriterion → FilterCriterion)
    (hid : ∀ c, (f c).id = c.id) (hcol : ∀ c, (f c).column = c.column)
    (hrel : ∀ c, loaded ≤ k → p.objects[k]? = some c →
      (f c).relation ∈ relationsOfColumn c.column) :
    PopupInvariant loaded { p with objects := modifyCriterion k f p.objects } := by
  obtain ⟨hids, hlt, hrefs, hdivs, hdid, hdir, hbyid, hopts, hvalid⟩ := hinv
  refine ⟨?_, ?_, hrefs, hdivs, ?_, ?_, hbyid, ?_, ?_⟩
  · simp only [map_id_modifyCriterion k f p.objects hid]
    exact hids
  · intro ref href
    simp only [length_modifyCriterion]
    exact hlt ref href
  · intro div hdiv
    simp only [map_id_modifyCriterion k f p.objects hid]
    exact hdid div hdiv
  · intro div hdiv ref hb
    obtain ⟨c, hc, hcid⟩ := hdir div hdiv ref hb
    simp only [getElem?_modifyCriterion]
    split_ifs with hk
    · subst hk
      exact ⟨f c, by simp [hc], by rw [hid, hcid]⟩
    · exact ⟨c, hc, hcid⟩
  · intro div hdiv ref c' hle hc' hcid
    obtain ⟨c, hc, hcase⟩ := getElem?_modifyCriterion_some _ _ _ _ _ hc'
    rcases hcase with ⟨_, rfl⟩ | ⟨_, rfl⟩
    · rw [hcol]
      exact hopts div hdiv ref c hle hc (by rw [← hid]; exact hcid)
    · exact hopts div hdiv ref c' hle hc hcid
  · intro ref c' hle hc'
    obtain ⟨c, hc, hcase⟩ := getElem?_modifyCriterion_some _ _ _ _ _ hc'
    rcases hcase with ⟨rfl, rfl⟩ | ⟨_, rfl⟩
    · rw [hcol]
      exact ⟨(hvalid ref c hle hc).1, hrel c hle hc⟩
    · exact hvalid ref c' hle hc

theorem map_dataId_set (divs : List FilterDiv) (i : Nat) (div new : FilterDiv)
    (hdiv : divs[i]? = some div) (hid : new.dataId = div.dataId) :
    (divs.set i new).map (fun d => d.dataId) = divs.map (fun d => d.dataId) := by
  apply List.ext_getElem?
  intro j
  simp only [List.getElem?_map]
  by_cases hj : i = j
  · subst hj
    have hi : i < divs.length := (List.getElem?_eq_some.mp hdiv).1
    simp [List.getElem?_set, hi, hdiv, hid]
  · rw [List.getElem?_set_ne hj]

/-- A div of the list after one div has been replaced is the new div or an old
div with another `data-id`. -/
theorem mem_set_div (divs : List FilterDiv)
    (hnodup : (divs.map (fun d => d.dataId)).Nodup) (i : Nat) (div new d' : FilterDiv)
    (hdiv : divs[i]? = some div) (h : d' ∈ divs.set i new) :
    d' = new ∨ (d' ∈ divs ∧ d'.dataId ≠ div.dataId) := by
  obtain ⟨j, hj⟩ := List.mem_iff_getElem?.mp h
  by_cases hij : i = j
  · subst hij
    have hi : i < divs.length := (List.getElem?_eq_some.mp hdiv).1
    simp only [List.getElem?_set, hi, if_true, Option.some.injEq] at hj
    exact Or.inl hj.symm
  · rw [List.getElem?_set_ne hij] at hj
    refine Or.inr ⟨List.getElem?_mem hj, ?_⟩
    intro heq
    obtain ⟨hi, hdi⟩ := List.getElem?_eq_some.mp hdiv
    obtain ⟨hjl, hdj⟩ := List.getElem?_eq_some.mp hj
    have h1 : i < (divs.map (fun d => d.dataId)).length := by simpa using hi
    have h2 : j < (divs.map (fun d => d.dataId)).length := by simpa using hjl
    exact hij ((@List.Nodup.getElem_inj_iff _ _ hnodup i h1 j h2).mp
      (by simp [hdi, hdj, heq]))

/-- What `columnChange` does for an offered column in a div whose handler finds a
criterion. -/
theorem columnChange_found (p : FilterPopup) (i k : Nat) (value : String) (div : FilterDiv)
    (first : String) (others : List String)
    (hd : p.divs[i]? = some div) (hk : criterionRef div.binding p = some k)
    (hnew : newRelationsOf value = some (first :: others)) :
    columnChange i value p =
      { p with
        objects :=
          modifyCriterion k
            (fun c => { c with column := value, relation := first, value := "" }) p.objects
        divs := p.divs.set i { div with relationOptions := first :: others } } := by
  unfold columnChange
  simp only [hd, hk, hnew]

/-- The invariant after the assignments of a column change: the object found
gets the new column and a relation of its type, the div the matching options. -/
theorem PopupInvariant.column_assign {loaded : Nat} {p : FilterPopup}
    (hinv : PopupInvariant loaded p) (i k : Nat) (div dnew : FilterDiv)
    (value first : String) (c : FilterCriterion)
    (hd : p.divs[i]? = some div) (hdata : dnew.dataId = div.dataId)
    (hbind : dnew.binding = div.binding)
    (hopt : dnew.relationOptions = relationsOfColumn value)
    (hc : p.objects[k]? = some c) (hcid : c.id = div.dataId)
    (hv : value ∈ columnOptions) (hfirst : first ∈ relationsOfColumn value) :
    PopupInvariant loaded
      { p with
        objects :=
          modifyCriterion k
            (fun c => { c with column := value, relation := first, value := "" }) p.objects
        divs := p.divs.set i dnew } := by
  have hmem : div ∈ p.divs := List.getElem?_mem hd
  obtain ⟨hids, hlt, hrefs, hdivs, hdid, hdir, hbyid, hopts, hvalid⟩ := hinv
  have hfid : ∀ c : FilterCriterion,
      ({ c with column := value, relation := first, value := "" } : FilterCriterion).id
        = c.id := fun _ => rfl
  have hcases : ∀ d', d' ∈ p.divs.set i dnew →
      d' = dnew ∨ (d' ∈ p.divs ∧ d'.dataId ≠ div.dataId) :=
    fun d' h => mem_set_div p.divs hdivs i div dnew d' hd h
  refine ⟨?_, ?_, hrefs, ?_, ?_, ?_, ?_, ?_, ?_⟩
  · simp only [map_id_modifyCriterion k _ p.objects hfid]
    exact hids
  · intro ref href
    simp only [length_modifyCriterion]
    exact hlt ref href
  · simp only [map_dataId_set p.divs i div dnew hd hdata]
    exact hdivs
  · intro d' hd'
    simp only [map_id_modifyCriterion k _ p.objects hfid]
    rcases hcases d' hd' with heq | ⟨hold, _⟩
    · rw [heq, hdata]
      exact hdid div hmem
    · exact hdid d' hold
  · intro d' hd' ref hb
    have hold : ∃ c0, p.objects[ref]? = some c0 ∧ c0.id = d'.dataId := by
      rcases hcases d' hd' with heq | ⟨hold, _⟩
      · rw [heq, hbind] at hb
        rw [heq, hdata]
        exact hdir div hmem ref hb
      · exact hdir d' hold ref hb
    obtain ⟨c0, hc0, hc0id⟩ := hold
    simp only [getElem?_modifyCriterion]
    split_ifs with hrk
    · subst hrk
      exact ⟨{ c0 with column := value, relation := first, value := "" },
        by simp only [hc0, Option.map_some'], hc0id⟩
    · exact ⟨c0, hc0, hc0id⟩
  · intro d' hd' criterionId hb
    rcases hcases d' hd' with heq | ⟨hold, _⟩
    · rw [heq, hbind] at hb
      rw [heq, hdata]
      exact hbyid div hmem criterionId hb
    · exact hbyid d' hold criterionId hb
  · intro d' hd' ref c' hle hc' hc'id
    obtain ⟨c0, hc0, hcase⟩ := getElem?_modifyCriterion_some _ _ _ _ _ hc'
    have hc0id : c0.id = d'.dataId := by
      rcases hcase with ⟨_, h⟩ | ⟨_, h⟩
      · rw [h] at hc'id; exact hc'id
      · rw [h] at hc'id; exact hc'id
    rcases hcases d' hd' with heq | ⟨hold, hne⟩
    · have href : ref = k :=
        ref_eq_of_id_eq p.objects hids ref k c0 c hc0 hc (by rw [hc0id, heq, hdata, hcid])
      rcases hcase with ⟨_, h⟩ | ⟨hnk, _⟩
      · rw [heq, hopt, h]
      · exact absurd href hnk
    · rcases hcase with ⟨hrk, _⟩ | ⟨_, h⟩
      · have hcc : c0 = c := Option.some.inj (hc0.symm.trans (hrk ▸ hc))
        exact absurd (by rw [← hc0id, hcc, hcid]) hne
      · rw [h]
        exact hopts d' hold ref c0 hle hc0 hc0id
  · intro ref c' hle hc'
    obtain ⟨c0, hc0, hcase⟩ := getElem?_modifyCriterion_some _ _ _ _ _ hc'
    rcases hcase with ⟨_, h⟩ | ⟨_, h⟩
    · rw [h]
      exact ⟨hv, hfirst⟩
    · rw [h]
      exact hvalid ref c0 hle hc0

theorem PopupInvariant.afterColumn {loaded : Nat} {p : FilterPopup}
    (hinv : PopupInvariant loaded p) (i : Nat) (value : String) (hi : i < p.divs.length)
    (hv : value ∈ columnOptions) : PopupInvariant loaded (columnChange i value p) := by
  have hd : p.divs[i]? = some p.divs[i] := List.getElem?_eq_getElem hi
  have hmem : p.divs[i] ∈ p.divs := List.getElem_mem hi
  cases hk : PeopleViewer.criterionRef p.divs[i].binding p with
  | none =>
    unfold columnChange
    simp only [hd, hk]
    exact hinv
  | some k =>
    obtain ⟨t, first, others, _, _, hrels, hnew⟩ := columnOptions_relations value hv
    rw [columnChange_found p i k value p.divs[i] first others hd hk hnew]
    obtain ⟨c, hc, hcid⟩ := hinv.found hmem hk
    exact hinv.column_assign i k p.divs[i] _ value first c hd rfl rfl hrels.symm hc hcid hv
      (by rw [hrels]; exact List.mem_cons_self _ _)

theorem PopupInvariant.afterRelation {loaded : Nat} {p : FilterPopup}
    (hinv : PopupInvariant loaded p) (i : Nat) (value : String) (div : FilterDiv)
    (hd : p.divs[i]? = some div) (hv : value ∈ div.relationOptions) :
    PopupInvariant loaded (relationChange i value p) := by
  have hmem : div ∈ p.divs := List.getElem?_mem hd
  unfold relationChange
  simp only [hd]
  cases hk : PeopleViewer.criterionRef div.binding p with
  | none => exact hinv
  | some k =>
    obtain ⟨c, hc, hcid⟩ := hinv.found hmem hk
    refine hinv.assign k _ (fun _ => rfl) (fun _ => rfl) ?_
    intro c' hle hc'
    have hcc : c' = c := Option.some.inj (hc'.symm.trans hc)
    subst hcc
    have := hinv.2.2.2.2.2.2.2.1 div hmem k c' hle hc hcid
    rw [← this]
    exact hv

theorem PopupInvariant.afterInput {loaded : Nat} {p : FilterPopup}
    (hinv : PopupInvariant loaded p) (i : Nat) (value : String) :
    PopupInvariant loaded (valueInput i value p) := by
  unfold valueInput
  split
  · exact hinv
  · split
    · exact hinv
    · rename_i k _
      exact hinv.assign k _ (fun _ => rfl) (fun _ => rfl)
        (fun c hle hc => (hinv.2.2.2.2.2.2.2.2 k c hle hc).2)

theorem PopupInvariant.afterEvent {loaded : Nat} {p : FilterPopup}
    (hinv : PopupInvariant loaded p) (e : PopupEvent) (hd : delivered p e = true)
    (hf : freshId p e = true) : PopupInvariant loaded (applyEvent p e) := by
  cases e with
  | showFilter => exact hinv.afterShowFilter
  | showSort => exact hinv.afterShowSort
  | addFilter now =>
    simp only [freshId, List.all_eq_true, decide_eq_true_eq] at hf
    exact hinv.afterAdd now hf
  | deleteFilter id => exact hinv.afterDelete id
  | clearFilters => exact hinv.afterClear
  | column i value =>
    simp only [delivered, Bool.and_eq_true, decide_eq_true_eq] at hd
    exact hinv.afterColumn i value hd.1 hd.2
  | relation i value =>
    simp only [delivered] at hd
    cases hdiv : p.divs[i]? with
    | none => simp [hdiv] at hd
    | some div =>
      simp only [hdiv, decide_eq_true_eq] at hd
      exact hinv.afterRelation i value div hdiv hd
  | input i value => exact hinv.afterInput i value

theorem PopupInvariant.afterRun {loaded : Nat} (events : List PopupEvent) :
    ∀ {p : FilterPopup}, PopupInvariant loaded p → deliveredRun p events = true →
      freshRun p events = true → PopupInvariant loaded (runEvents p events) := by
  induction events with
  | nil => intro p hinv _ _; exact hinv
  | cons e es ih =>
    intro p hinv hd hf
    simp only [deliveredRun, freshRun, Bool.and_eq_true] at hd hf
    exact ih (hinv.afterEvent e hd.1 hf.1) hd.2 hf.2

/-- A criterion with an offered column, a relation of the column's type and a
non-empty value has a clause. -/
theorem filterClause_of_valid (c : FilterCriterion) (hcol : c.column ∈ columnOptions)
    (hrel : c.relation ∈ relationsOfColumn c.column) (hval : c.value ≠ "") :
    ∃ clause, filterClause c = some clause := by
  obtain ⟨id, column, relation, value⟩ := c
  simp only at hcol hrel hval
  simp only [columnOptions, List.mem_cons, List.mem_singleton, List.not_mem_nil,
    or_false] at hcol
  rcases hcol with rfl | rfl | rfl | rfl | rfl | rfl
  all_goals
    simp only [relationsOfColumn, columnTypes, relationsByType] at hrel
    simp at hrel
  all_goals
    rcases hrel with rfl | rfl | rfl | rfl <;> simp [filterClause, columnTypes, hval]

theorem filterParams_of_mem (fc : List FilterCriterion) (clause : String)
    (h : clause ∈ filters fc) :
    filterParams fc = ["$filter=" ++ " and ".intercalate (filters fc)] := by
  have h2 : 0 < (filters fc).length := List.length_pos_of_mem h
  have h1 : 0 < fc.length := by
    cases fc with
    | nil => simp [filters] at h
    | cons a as => simp
  simp [filterParams, h1, h2]

/-- Only `addFilterCriteria` creates a criterion object after the page load: any
other event leaves the number of objects as it is. -/
theorem objects_length_applyEvent (p : FilterPopup) (e : PopupEvent) :
    (applyEvent p e).objects.length = p.objects.length ∨
      ∃ now, e = PopupEvent.addFilter now ∧
        (applyEvent p e).objects.length = p.objects.length + 1 := by
  cases e with
  | showFilter => exact Or.inl rfl
  | showSort => exact Or.inl rfl
  | addFilter now =>
    simp only [applyEvent, addFilterCriteria]
    split_ifs
    · exact Or.inr ⟨now, rfl, by simp⟩
    · exact Or.inl rfl
  | deleteFilter id => exact Or.inl rfl
  | clearFilters => exact Or.inl rfl
  | column i value =>
    left
    simp only [applyEvent, columnChange]
    split
    · rfl
    · split
      · rfl
      · split <;> simp [length_modifyCriterion]
  | relation i value =>
    left
    simp only [applyEvent, relationChange]
    split
    · rfl
    · split
      · rfl
      · simp [length_modifyCriterion]
  | input i value =>
    left
    simp only [applyEvent, valueInput]
    split
    · rfl
    · split
      · rfl
      · simp [length_modifyCriterion]

/-- C11 (amended): on a page loaded with any query string, in every sequence of
popup events (the two popups shown, filters added, deleted and reset, columns,
relations and values changed through the handlers of the divs, each with a value
the div's select offers) in which `Date.now()` never gives `addFilterCriteria`
an id that a criterion object already carries, every criterion object that
`addFilterCriteria` created (its reference is beyond the objects of the page
load) has a column that is a key of `columnTypes` and a relation of
`relationsByType` for that column's type, and while it is in `filterCriteria`
with a non-empty value it has a clause that is part of the `$filter` parameter;
and a column change leaves the criterion its handler finds with the new column,
the first relation of the new column's type and the empty value. -/
theorem popup_criteria_valid (sortNow filterNow : Nat) (search : List (String × String))
    (events : List PopupEvent) (start p : FilterPopup)
    (hstart : start = popupAtLoad sortNow filterNow search)
    (hp : p = runEvents start events)
    (hdelivered : deliveredRun start events = true)
    (hfresh : freshRun start events = true) :
    (∀ (ref : Nat) (c : FilterCriterion), start.objects.length ≤ ref →
      p.objects[ref]? = some c →
        (∃ type, columnTypes c.column = some type ∧ c.relation ∈ relationsByType type) ∧
        (ref ∈ p.filterCriteria → c.value ≠ "" →
          ∃ clause, filterClause c = some clause ∧
            clause ∈ filters (criteriaOf p) ∧
            filterParams (criteriaOf p) =
              ["$filter=" ++ " and ".intercalate (filters (criteriaOf p))])) ∧
    (∀ (i : Nat) (value : String) (div : FilterDiv) (k : Nat),
      delivered p (PopupEvent.column i value) = true →
      p.divs[i]? = some div → criterionRef div.binding p = some k →
      ∃ c c' type first others,
        p.objects[k]? = some c ∧ (columnChange i value p).objects[k]? = some c' ∧
        c'.id = c.id ∧ c'.column = value ∧ columnTypes value = some type ∧
        relationsByType type = first :: others ∧ c'.relation = first ∧ c'.value = "") := by
  have hinv : PopupInvariant start.objects.length p := by
    rw [hp]
    refine PopupInvariant.afterRun events ?_ hdelivered hfresh
    rw [hstart]
    exact PopupInvariant.atLoad sortNow filterNow search
  constructor
  · intro ref c hle hc
    obtain ⟨hcol, hrel⟩ := hinv.2.2.2.2.2.2.2.2 ref c hle hc
    refine ⟨?_, ?_⟩
    · obtain ⟨t, _, _, ht, _, _, _⟩ := columnOptions_relations _ hcol
      exact ⟨t, ht, by simpa [relationsOfColumn, ht] using hrel⟩
    · intro href hval
      obtain ⟨clause, hclause⟩ := filterClause_of_valid _ hcol hrel hval
      have hmem : clause ∈ filters (criteriaOf p) := by
        refine List.mem_filterMap.mpr ⟨c, ?_, hclause⟩
        exact List.mem_filterMap.mpr ⟨ref, href, hc⟩
      exact ⟨clause, hclause, hmem, filterParams_of_mem _ _ hmem⟩
  · intro i value div k hdel hdiv hk
    simp only [delivered, Bool.and_eq_true, decide_eq_true_eq] at hdel
    obtain ⟨t, first, others, ht, hrel, _, hnew⟩ := columnOptions_relations value hdel.2
    obtain ⟨c, hc, _⟩ := hinv.found (List.getElem?_mem hdiv) hk
    refine ⟨c, { c with column := value, relation := first, value := "" }, t, first, others,
      hc, ?_, rfl, rfl, ht, hrel, rfl, rfl⟩
    rw [columnChange_found p i k value div first others hdiv hk hnew]
    simp only [getElem?_modifyCriterion, if_true, hc, Option.map_some']

theorem popup_criteria_valid_witness :
    filterParams (criteriaOf (runEvents (popupAtLoad 1 50 sampleSearch) sampleSession)) =
      ["$filter=Age eq 5 and Age lt 30"] := by
  obtain ⟨_, hclause⟩ :=
    (popup_criteria_valid 1 50 sampleSearch sampleSession _ _ rfl rfl
      (by decide) (by decide)).1 2
      { id := 200, column := "Age", relation := "lt", value := "30" } (by decide) (by decide)
  obtain ⟨_, _, _, hparams⟩ := hclause (by decide) (by decide)
  exact hparams.trans (by decide)

/-- C11 (as stated, refuted): two filters added in the same millisecond get the
same id, so the handlers of both divs find the first criterion.  Setting the
column select of the second div to `Age` and then the relation select of the
first div, which still offers the relations of a string column, to `contains`
leaves the first criterion with column `Age` and relation `contains`, which
`relationsByType` does not list for a number column; every value chosen was one
the page offered. -/
theorem same_id_session_breaks_relation :
    deliveredRun (popupAtLoad 0 0 []) sameIdSession = true ∧
      (runEvents (popupAtLoad 0 0 []) sameIdSession).filterCriteria = [0, 1] ∧
      (runEvents (popupAtLoad 0 0 []) sameIdSession).objects[0]? =
        some { id := 100, column := "Age", relation := "contains", value := "x" } ∧
      columnTypes "Age" = some "number" ∧
      "contains" ∉ relationsByType "number" ∧
      filterParams (criteriaOf (runEvents (popupAtLoad 0 0 []) sameIdSession)) =
        ["$filter=Age contains x"] := by
  decide

end PeopleViewer
